import Mathlib

/-!
Shallow embedding of the claw-daw project-to-audio engine and theorems
settling the specification claims.

Embedded sources: model/types.py, arrange/types.py, arrange/sections.py,
arrange/variations.py, util/notes.py, util/groove.py, util/drumkit.py,
util/timecode.py, util/validate.py, util/limits.py, io/midi.py,
prompt/similarity.py, audio/render.py, audio/drum_render_sanity.py,
audio/sampler.py (call surface).

Modelling conventions:
- Python ints are Lean integers; Python floor division and modulo are
  Int.fdiv / Int.fmod (or emod where the divisor is positive).
- Python floats are exact rationals.  Where the claims are sensitive to
  IEEE-754 binary64 rounding, the rounding step is reproduced exactly by
  floatRound below (round to nearest, ties to even, 53-bit significand; no
  overflow/subnormal handling, which never arises at the magnitudes used).
- Python str is a Lean String; the timecode parser works over List Char.
- The stdlib Mersenne Twister (random.Random) is outside this repository;
  functions that consume it take the draw as an explicit function
  parameter from the integer seed key (or the note position)
  to the drawn value, which is exactly the keying structure the code uses.
- Fallible constructors and functions that can raise return Except String.
-/

namespace ClawDaw

set_option maxRecDepth 10000

/-- util/validate.py clamp: max(lo, min(hi, v)). -/
def clamp (v lo hi : ℤ) : ℤ := max lo (min hi v)

/-- Round a rational to the nearest integer, ties to even: the semantics of
Python round() applied to an exactly-represented value. -/
def pyRoundHalfEven (q : ℚ) : ℤ :=
  let f := ⌊q⌋
  let r := q - (f : ℚ)
  if r < 1/2 then f
  else if 1/2 < r then f + 1
  else if f % 2 = 0 then f else f + 1

/-- Python int() truncation toward zero of a float value. -/
def pyTrunc (q : ℚ) : ℤ := q.num / (q.den : ℤ)

/-- Fuel-limited count of halvings taking 1 ≤ a down into [1,2). -/
def log2Up (a : ℚ) : ℕ → ℕ
  | 0 => 0
  | fuel + 1 => if a < 2 then 0 else 1 + log2Up (a / 2) fuel

/-- Fuel-limited count of doublings taking 0 < a < 1 up to ≥ 1. -/
def log2Dn (a : ℚ) : ℕ → ℕ
  | 0 => 0
  | fuel + 1 => if 1 ≤ a then 0 else 1 + log2Dn (a * 2) fuel

/-- Floor of log₂ a for a > 0 (fuel 400 covers all magnitudes arising here). -/
def floorLog2 (a : ℚ) : ℤ :=
  if 1 ≤ a then (log2Up a 400 : ℤ) else -((log2Dn a 400 : ℤ))

/-- 2^k over ℚ for an integer exponent, via kernel-friendly Nat powers. -/
def qpow2 (k : ℤ) : ℚ :=
  if 0 ≤ k then ((2 ^ k.toNat : ℕ) : ℚ) else 1 / ((2 ^ (-k).toNat : ℕ) : ℚ)

/-- Round an exact rational to the nearest IEEE-754 binary64 value
(round to nearest, ties to even, 53-bit significand). -/
def floatRound (q : ℚ) : ℚ :=
  if q = 0 then 0
  else
    let a := |q|
    let e : ℤ := floorLog2 a
    let ulp : ℚ := qpow2 (e - 52)
    let m : ℤ := pyRoundHalfEven (a / ulp)
    (if q < 0 then -1 else 1) * (m : ℚ) * ulp

/-- Python float division of exactly-represented operands. -/
def flDiv (a b : ℚ) : ℚ := floatRound (a / b)

/-- Python float multiplication of exactly-represented operands. -/
def flMul (a b : ℚ) : ℚ := floatRound (a * b)

/-- The binary64 value denoted by the decimal literal a/b in the source
(e.g. flLit 65 100 is the Python float 0.65). -/
def flLit (a b : ℤ) : ℚ := floatRound ((a : ℚ) / (b : ℚ))

/-! ## Data model: model/types.py, arrange/types.py, arrange/sections.py -/

/-- model/types.py Note: a single MIDI note event, times in ticks. -/
structure Note where
  start : ℤ
  duration : ℤ
  pitch : ℤ
  velocity : ℤ
  role : Option String
  chance : ℚ
  mute : Bool
  accent : ℚ
  glide_ticks : ℤ
deriving Repr, DecidableEq

/-- model/types.py Note.__post_init__: validation plus normalization of the
expression fields.  A none argument for chance / accent / glide_ticks models a
value whose float() / int() coercion raises (replaced by the default). -/
def mkNote (start duration pitch velocity : ℤ) (role : Option String)
    (chance : Option ℚ) (mute : Bool) (accent : Option ℚ)
    (glide_ticks : Option ℤ) : Except String Note :=
  if ¬(0 ≤ pitch ∧ pitch ≤ 127) then .error "pitch out of range"
  else
    let role2 : Option String :=
      match role with
      | none => none
      | some r => let r2 := r.trim; if r2 = "" then none else some r2
    if ¬(1 ≤ velocity ∧ velocity ≤ 127) then .error "velocity out of range"
    else if start < 0 then .error "start must be >= 0"
    else if duration ≤ 0 then .error "duration must be > 0"
    else
      let c := max 0 (min 1 (chance.getD 1))
      let a0 := accent.getD 1
      let a := if a0 ≤ 0 then 1 else a0
      let g0 := glide_ticks.getD 0
      let g := if g0 < 0 then 0 else g0
      .ok ⟨start, duration, pitch, velocity, role2, c, mute, a, g⟩

/-- The role normalization performed by the Note constructor: strip, and turn
an empty result into none. -/
def normRoleField : Option String → Option String
  | none => none
  | some r => if r.trim = "" then none else some r.trim

/-- The per-note bounds of §8: velocity ∈ [1,127], start ≥ 0, duration ≥ 1,
pitch ∈ [0,127]. -/
def Note.valid (n : Note) : Prop :=
  1 ≤ n.velocity ∧ n.velocity ≤ 127 ∧ 0 ≤ n.start ∧ 1 ≤ n.duration ∧
    0 ≤ n.pitch ∧ n.pitch ≤ 127

instance (n : Note) : Decidable n.valid := by
  unfold Note.valid; infer_instance

/-- model/types.py Note.end: start + duration. -/
def Note.endTick (n : Note) : ℤ := n.start + n.duration

/-- model/types.py Note.effective_velocity:
clamp(round(velocity · accent), 1, 127), product taken in binary64. -/
def Note.effectiveVelocity (n : Note) : ℤ :=
  clamp (pyRoundHalfEven (flMul (n.velocity : ℚ) n.accent)) 1 127

/-- arrange/types.py Pattern (named, owned by a track; length in ticks). -/
structure Pattern where
  name : String
  length : ℤ
  notes : List Note
deriving Repr, DecidableEq

/-- arrange/types.py Clip (placement of a pattern on the track timeline). -/
structure Clip where
  pattern : String
  start : ℤ
  repeats : ℤ
deriving Repr, DecidableEq

/-- arrange/sections.py Section (named time span, in ticks). -/
structure Section where
  name : String
  start : ℤ
  length : ℤ
deriving Repr, DecidableEq

/-- arrange/sections.py Variation (pattern swap scoped to a section).
The source field name is `section`, a reserved word in Lean. -/
structure Variation where
  sectionName : String
  track_index : ℤ
  src_pattern : String
  dst_pattern : String
deriving Repr, DecidableEq

/-- model/types.py InstrumentSpec.  params is a loose dict whose values the
embedded code paths never inspect; only its key list is kept. -/
structure InstrumentSpec where
  id : String
  preset : String
  params : List String
  seed : ℤ
deriving Repr, DecidableEq

/-- model/types.py SamplePackSpec. -/
structure SamplePackSpec where
  id : Option String
  path : Option String
  seed : ℤ
  gain_db : ℚ
deriving Repr, DecidableEq

/-- model/types.py Track.  The patterns dict is an insertion-ordered
association list with unique keys, like a Python dict. -/
structure Track where
  name : String
  channel : ℤ
  program : ℤ
  volume : ℤ
  pan : ℤ
  reverb : ℤ
  chorus : ℤ
  sampler : Option String
  instrument : Option InstrumentSpec
  sample_pack : Option SamplePackSpec
  drum_kit : String
  sampler_preset : String
  glide_ticks : ℤ
  humanize_timing : ℤ
  humanize_velocity : ℤ
  humanize_seed : ℤ
  bus : String
  notes : List Note
  patterns : List (String × Pattern)
  clips : List Clip
  mute : Bool
  solo : Bool
deriving Repr, DecidableEq

/-- model/types.py Project.  The mix spec is a loose dict whose values the
embedded code paths never inspect; only its key list is kept (the render
entry point tests only its truthiness, i.e. non-emptiness). -/
structure Project where
  name : String
  tempo_bpm : ℤ
  ppq : ℤ
  tracks : List Track
  sections : List Section
  variations : List Variation
  swing_percent : ℤ
  loop_start : Option ℤ
  loop_end : Option ℤ
  render_start : Option ℤ
  render_end : Option ℤ
  mix : List String
deriving Repr, DecidableEq

/-! ## Time & grid: util/notes.py apply_swing_tick, util/timecode.py -/

/-- The swing offset the code adds: int(step · (swing_percent / 100.0)),
with the division and multiplication performed in binary64. -/
def swingOffset (step swing_percent : ℤ) : ℤ :=
  pyTrunc (flMul (step : ℚ) (flDiv (swing_percent : ℚ) 100))

/-- util/notes.py apply_swing_tick (io/midi.py _apply_swing_tick is a verbatim
copy): swing the offbeat 16th, i.e. step = ppq // 4, swing odd steps. -/
def applySwingTick (tick ppq swing_percent : ℤ) : ℤ :=
  if swing_percent ≤ 0 then tick
  else
    let step := Int.fdiv ppq 4
    if step ≤ 0 then tick
    else
      let s := Int.fdiv tick step
      if Int.fmod s 2 = 1 then tick + swingOffset step swing_percent
      else tick

/-- Strip leading and trailing whitespace (Python str.strip). -/
def trimChars (s : List Char) : List Char :=
  ((s.dropWhile Char.isWhitespace).reverse.dropWhile Char.isWhitespace).reverse

/-- Python str.isdigit (ASCII digits; an empty string is not a digit string). -/
def allDigits (s : List Char) : Bool :=
  !s.isEmpty && s.all Char.isDigit

/-- Decimal value of a digit string. -/
def digitsVal (s : List Char) : ℕ :=
  s.foldl (fun acc c => 10 * acc + (c.toNat - 48)) 0

/-- No two consecutive underscores. -/
def noDoubleUnderscore : List Char → Bool
  | [] => true
  | [_] => true
  | a :: b :: rest => !(a == '_' && b == '_') && noDoubleUnderscore (b :: rest)

/-- Python int(s) applied to a string: optional surrounding whitespace, one
optional sign, ASCII digits with single underscores strictly between digits.
none models ValueError. -/
def pyIntParse (s : List Char) : Option ℤ :=
  let t := trimChars s
  let signBody : ℤ × List Char :=
    match t with
    | '-' :: rest => (-1, rest)
    | '+' :: rest => (1, rest)
    | _ => (1, t)
  let sign := signBody.1
  let body := signBody.2
  if body.isEmpty then none
  else if !(body.all fun c => c.isDigit || c == '_') then none
  else if body.head? = some '_' ∨ body.getLast? = some '_' then none
  else if !noDoubleUnderscore body then none
  else some (sign * (digitsVal (body.filter (· ≠ '_')) : ℤ))

/-- A Python scalar argument: either an int or a str. -/
inductive PyScalar where
  | int (n : ℤ)
  | str (s : List Char)
deriving Repr, DecidableEq

/-- Split on the colon character, keeping empty segments (Python split(":")). -/
def splitOnColon : List Char → List (List Char)
  | [] => [[]]
  | c :: rest =>
    let r := splitOnColon rest
    if c = ':' then [] :: r
    else
      match r with
      | [] => [[c]]
      | h :: t => (c :: h) :: t

/-- util/timecode.py parse_timecode_ticks. -/
def parseTimecodeTicks (ppq : ℤ) (value : PyScalar) : Except String ℤ :=
  match value with
  | .int n => .ok n
  | .str s0 =>
    let s := trimChars s0
    if s.isEmpty then .error "empty timecode"
    else if allDigits s then .ok (digitsVal s : ℤ)
    else if s.head? = some '-' ∧ allDigits s.tail then .ok (-(digitsVal s.tail : ℤ))
    else
      let parts := splitOnColon s
      if ¬(parts.length = 2 ∨ parts.length = 3) then .error "invalid timecode"
      else do
        let bar ← (pyIntParse (parts.getD 0 [])).elim (Except.error "invalid literal for int") .ok
        let beat ← (pyIntParse (parts.getD 1 [])).elim (Except.error "invalid literal for int") .ok
        let sub ←
          if parts.length = 3 then
            (pyIntParse (parts.getD 2 [])).elim (Except.error "invalid literal for int") .ok
          else (Except.ok 0 : Except String ℤ)
        if bar < 0 ∨ beat < 0 ∨ sub < 0 then .error "timecode must be >= 0"
        else .ok (bar * (ppq * 4) + beat * ppq + sub)

/-! ## Generic helpers: Except-valued list traversal and a stable sort
(models Python list comprehensions that may raise, and list.sort). -/

instance exceptDecEq {ε α : Type} [DecidableEq ε] [DecidableEq α] :
    DecidableEq (Except ε α) := fun x y =>
  match x, y with
  | .error a, .error b =>
    if h : a = b then .isTrue (congrArg Except.error h)
    else .isFalse (fun he => h (Except.error.inj he))
  | .ok a, .ok b =>
    if h : a = b then .isTrue (congrArg Except.ok h)
    else .isFalse (fun he => h (Except.ok.inj he))
  | .error _, .ok _ => .isFalse (fun he => Except.noConfusion he)
  | .ok _, .error _ => .isFalse (fun he => Except.noConfusion he)

/-- Map an Except-valued function over a list, propagating the first error. -/
def listMapE (f : α → Except String β) : List α → Except String (List β)
  | [] => .ok []
  | x :: xs =>
    match f x with
    | .error e => .error e
    | .ok y =>
      match listMapE f xs with
      | .error e => .error e
      | .ok ys => .ok (y :: ys)

/-- Insert x after every element y with ¬ lt y x: the stable position. -/
def insertOrd (lt : α → α → Bool) (x : α) : List α → List α
  | [] => [x]
  | y :: ys => if lt y x then y :: insertOrd lt x ys else x :: y :: ys

/-- Stable insertion sort by a strict comparison (models Python list.sort,
which is stable and ascending). -/
def insSortBy (lt : α → α → Bool) : List α → List α
  | [] => []
  | x :: xs => insertOrd lt x (insSortBy lt xs)

/-- Strict lexicographic comparison of integer pairs. -/
def lex2Lt (a b : ℤ × ℤ) : Bool := a.1 < b.1 || (a.1 = b.1 && a.2 < b.2)

/-- Strict lexicographic comparison of integer triples. -/
def lex3Lt (a b : ℤ × ℤ × ℤ) : Bool :=
  a.1 < b.1 || (a.1 = b.1 && lex2Lt a.2 b.2)

/-! ## util/drumkit.py -/

/-- util/drumkit.py DrumLayer: one (pitch, velocity multiplier) layer. -/
structure DrumLayer where
  pitch : ℤ
  vel_mul : ℚ
deriving Repr, DecidableEq

/-- util/drumkit.py DrumKit: role → ordered layer list (insertion-ordered
association list with unique keys, like the Python dict). -/
structure DrumKit where
  name : String
  roles : List (String × List DrumLayer)
deriving Repr, DecidableEq

/-- util/drumkit.py ROLE_ALIASES. -/
def ROLE_ALIASES : List (String × String) :=
  [("bd", "kick"), ("k", "kick"), ("sd", "snare"), ("s", "snare"),
   ("hh", "hat_closed"), ("ch", "hat_closed"), ("oh", "hat_open"),
   ("ph", "hat_pedal"), ("rc", "ride"), ("cr", "crash"),
   ("tomlo", "tom_low"), ("tomm", "tom_mid"), ("tomhi", "tom_high"),
   ("hat", "hat_closed"), ("hihat", "hat_closed")]

/-- Lowercase, then replace hyphens and spaces by underscores (the shared
normalization step of normalize_role and normalize_kit_name). -/
def pyNormToken (s : String) : String :=
  String.mk ((s.trim.toLower).data.map fun c =>
    if c == '-' || c == ' ' then '_' else c)

/-- util/drumkit.py normalize_role.  Note: a falsy role (none or the empty
string) maps to none, but a whitespace-only role normalizes to the empty
string, exactly as in Python. -/
def normalizeRole (role : Option String) : Option String :=
  match role with
  | none => none
  | some r =>
    if r = "" then none
    else
      let r1 := pyNormToken r
      some ((ROLE_ALIASES.lookup r1).getD r1)

/-- util/drumkit.py BUILTIN_KITS, trap_hard entry.  Velocity multipliers are
the binary64 values of the source literals. -/
def trapHard : DrumKit :=
  ⟨"trap_hard",
   [("kick", [⟨36, 1⟩, ⟨35, flLit 55 100⟩]),
    ("snare", [⟨38, 1⟩, ⟨40, flLit 65 100⟩]),
    ("clap", [⟨39, 1⟩, ⟨38, flLit 35 100⟩]),
    ("rim", [⟨37, 1⟩]),
    ("hat_closed", [⟨42, 1⟩]),
    ("hat_open", [⟨46, 1⟩]),
    ("hat_pedal", [⟨44, 1⟩]),
    ("tom_low", [⟨45, 1⟩]),
    ("tom_mid", [⟨47, 1⟩]),
    ("tom_high", [⟨50, 1⟩]),
    ("crash", [⟨49, 1⟩]),
    ("ride", [⟨51, 1⟩]),
    ("perc", [⟨56, 1⟩]),
    ("shaker", [⟨82, 1⟩])]⟩

/-- util/drumkit.py BUILTIN_KITS, house_clean entry. -/
def houseClean : DrumKit :=
  ⟨"house_clean",
   [("kick", [⟨36, 1⟩, ⟨35, flLit 35 100⟩]),
    ("snare", [⟨39, flLit 85 100⟩, ⟨38, flLit 55 100⟩]),
    ("clap", [⟨39, 1⟩]),
    ("rim", [⟨37, 1⟩]),
    ("hat_closed", [⟨42, 1⟩]),
    ("hat_open", [⟨46, 1⟩]),
    ("hat_pedal", [⟨44, 1⟩]),
    ("tom_low", [⟨45, 1⟩]),
    ("tom_mid", [⟨47, 1⟩]),
    ("tom_high", [⟨50, 1⟩]),
    ("crash", [⟨57, 1⟩]),
    ("ride", [⟨51, 1⟩]),
    ("perc", [⟨75, 1⟩]),
    ("shaker", [⟨70, 1⟩])]⟩

/-- util/drumkit.py BUILTIN_KITS, boombap_dusty entry. -/
def boombapDusty : DrumKit :=
  ⟨"boombap_dusty",
   [("kick", [⟨36, 1⟩, ⟨35, flLit 70 100⟩]),
    ("snare", [⟨38, 1⟩, ⟨54, flLit 40 100⟩]),
    ("clap", [⟨39, flLit 75 100⟩, ⟨38, flLit 30 100⟩]),
    ("rim", [⟨37, 1⟩]),
    ("hat_closed", [⟨42, 1⟩]),
    ("hat_open", [⟨46, 1⟩]),
    ("hat_pedal", [⟨44, 1⟩]),
    ("tom_low", [⟨45, 1⟩]),
    ("tom_mid", [⟨47, 1⟩]),
    ("tom_high", [⟨50, 1⟩]),
    ("crash", [⟨49, 1⟩]),
    ("ride", [⟨51, 1⟩]),
    ("perc", [⟨58, 1⟩]),
    ("shaker", [⟨82, 1⟩])]⟩

/-- util/drumkit.py BUILTIN_KITS, gm_basic entry. -/
def gmBasic : DrumKit :=
  ⟨"gm_basic",
   [("kick", [⟨36, 1⟩]),
    ("snare", [⟨38, 1⟩]),
    ("clap", [⟨39, 1⟩]),
    ("rim", [⟨37, 1⟩]),
    ("hat_closed", [⟨42, 1⟩]),
    ("hat_open", [⟨46, 1⟩]),
    ("hat_pedal", [⟨44, 1⟩]),
    ("tom_low", [⟨45, 1⟩]),
    ("tom_mid", [⟨47, 1⟩]),
    ("tom_high", [⟨50, 1⟩]),
    ("crash", [⟨49, 1⟩]),
    ("ride", [⟨51, 1⟩]),
    ("perc", [⟨56, 1⟩]),
    ("shaker", [⟨82, 1⟩])]⟩

/-- util/drumkit.py BUILTIN_KITS. -/
def BUILTIN_KITS : List (String × DrumKit) :=
  [("trap_hard", trapHard), ("house_clean", houseClean),
   ("boombap_dusty", boombapDusty), ("gm_basic", gmBasic)]

/-- util/drumkit.py KIT_ALIASES. -/
def KIT_ALIASES : List (String × String) :=
  [("default", "trap_hard"), ("gm", "gm_basic"), ("basic", "gm_basic")]

/-- util/drumkit.py normalize_kit_name (for a present, string-valued name). -/
def normalizeKitName (name : String) : String :=
  let k := pyNormToken name
  (KIT_ALIASES.lookup k).getD k

/-- util/drumkit.py get_drum_kit: a falsy normalized name falls back to
"default"; aliases are applied (again); unknown kits fall back to trap_hard. -/
def getDrumKit (name : String) : DrumKit :=
  let kn := normalizeKitName name
  let k0 := if kn = "" then "default" else kn
  let k1 := (KIT_ALIASES.lookup k0).getD k0
  match BUILTIN_KITS.lookup k1 with
  | some kit => kit
  | none => trapHard

/-- The layer expansion loop inside util/drumkit.py expand_role_note: the
clamped velocity is round(velocity · vel_mul) in binary64, and the chance
field is re-read through `float(... or 1.0)`, so a chance of exactly 0
becomes 1 on the expanded events. -/
def expandLayers (layers : List DrumLayer) (note : Note) : Except String (List Note) :=
  listMapE (fun lay =>
    mkNote note.start note.duration lay.pitch
      (clamp (pyRoundHalfEven (flMul (note.velocity : ℚ) lay.vel_mul)) 1 127)
      none
      (some (if note.chance = 0 then 1 else note.chance))
      note.mute (some note.accent) (some note.glide_ticks)) layers

/-- The unknown-role fallback of util/drumkit.py expand_role_note: keep the
note when its pitch is a usable non-zero MIDI pitch, else expand through the
closed-hat layers. -/
def expandUnknownRole (kit : DrumKit) (note : Note) : Except String (List Note) :=
  if (0 ≤ note.pitch ∧ note.pitch ≤ 127) ∧ note.pitch ≠ 0 then .ok [note]
  else expandLayers ((kit.roles.lookup "hat_closed").getD [⟨42, 1⟩]) note

/-- util/drumkit.py expand_role_note (an empty layer list is falsy and takes
the unknown-role fallback, like a missing one). -/
def expandRoleNote (track : Track) (note : Note) : Except String (List Note) :=
  match normalizeRole note.role with
  | none => .ok [note]
  | some role =>
    if role = "" then .ok [note]
    else
      let kit := getDrumKit track.drum_kit
      match kit.roles.lookup role with
      | some layers =>
        if layers.isEmpty then expandUnknownRole kit note
        else expandLayers layers note
      | none => expandUnknownRole kit note

/-- util/drumkit.py expand_role_notes. -/
def expandRoleNotes (track : Track) (notes : List Note) : Except String (List Note) :=
  (listMapE (expandRoleNote track) notes).map List.flatten

/-! ## util/groove.py -/

/-- util/groove.py HumanizeSettings. -/
structure HumanizeSettings where
  timing_ticks : ℤ
  velocity : ℤ
  seed : ℤ
deriving Repr, DecidableEq

/-- One note of the jittered humanize branch: the successive rnd.randint
draws of the Random(seed)-seeded Mersenne Twister are modelled by the
external functions jt (timing jitter) and jv (velocity jitter), indexed by
note position; the code consults a draw only when the corresponding setting
is positive.  Start is clamped to ≥ 0 and velocity to [1,127]; duration is
unchanged. -/
def humanizeOne (jt jv : ℕ → ℤ) (settings : HumanizeSettings)
    (p : ℕ × Note) : Except String Note :=
  let n := p.2
  let dt := if settings.timing_ticks > 0 then jt p.1 else 0
  let dv := if settings.velocity > 0 then jv p.1 else 0
  mkNote (max 0 (n.start + dt)) n.duration n.pitch
    (max 1 (min 127 (n.velocity + dv))) n.role
    (some n.chance) n.mute (some n.accent) (some n.glide_ticks)

/-- util/groove.py humanize_notes: with both settings at zero, the notes are
re-constructed unchanged; otherwise each note is jittered via humanizeOne and
the result is sorted by (start, pitch). -/
def humanizeNotes (jt jv : ℕ → ℤ) (settings : HumanizeSettings)
    (notes : List Note) : Except String (List Note) :=
  if settings.timing_ticks ≤ 0 ∧ settings.velocity ≤ 0 then
    listMapE (fun n =>
      mkNote n.start n.duration n.pitch n.velocity n.role
        (some n.chance) n.mute (some n.accent) (some n.glide_ticks)) notes
  else
    match listMapE (humanizeOne jt jv settings) notes.enum with
    | .error e => .error e
    | .ok out =>
      .ok (insSortBy (fun a b => lex2Lt (a.start, a.pitch) (b.start, b.pitch)) out)

/-! ## arrange/variations.py -/

/-- arrange/variations.py _section_at_tick. -/
def sectionAtTick : List Section → ℤ → Option String
  | [], _ => none
  | s :: rest, tick =>
    if s.start ≤ tick ∧ tick < s.start + s.length then some s.name
    else sectionAtTick rest tick

/-- arrange/variations.py resolve_pattern_name.  Note: a section whose name is
the empty string is falsy in Python, so it resolves to the base pattern. -/
def resolvePatternName (base_pattern : String) (track_index tick : ℤ)
    (sections : List Section) (variations : List Variation) : String :=
  match sectionAtTick sections tick with
  | none => base_pattern
  | some sec =>
    if sec = "" then base_pattern
    else
      match variations.find? (fun v =>
          v.sectionName == sec && v.track_index == track_index &&
            v.src_pattern == base_pattern) with
      | some v => v.dst_pattern
      | none => base_pattern

/-! ## util/notes.py -/

/-- One repetition of a pattern at absolute base tick: every note is
re-constructed at its swung absolute start. -/
def flattenPatRep (ppq swing_percent base : ℤ) (pat : Pattern) :
    Except String (List Note) :=
  listMapE (fun n =>
    mkNote (applySwingTick (base + n.start) ppq swing_percent)
      n.duration n.pitch n.velocity n.role (some n.chance) n.mute
      (some n.accent) (some n.glide_ticks)) pat.notes

/-- One clip of the flattening loop: resolve the effective pattern name, skip
the clip if it is missing, else lay out each repetition. -/
def flattenClipOne (project : Project) (track_index : ℤ) (track : Track)
    (ppq swing_percent : ℤ) (clip : Clip) : Except String (List Note) :=
  match track.patterns.lookup (resolvePatternName clip.pattern track_index
      clip.start project.sections project.variations) with
  | none => .ok []
  | some pat =>
    (listMapE (fun (rep : ℕ) =>
      flattenPatRep ppq swing_percent (clip.start + (rep : ℤ) * pat.length) pat)
      (List.range clip.repeats.toNat)).map List.flatten

/-- The clips × patterns flattening loop shared by util/notes.py
flatten_track_notes and io/midi.py _iter_track_events. -/
def flattenClips (project : Project) (track_index : ℤ) (track : Track)
    (ppq swing_percent : ℤ) : Except String (List Note) :=
  (listMapE (flattenClipOne project track_index track ppq swing_percent)
    track.clips).map List.flatten

/-- The legacy linear-notes flattening step (swing only). -/
def flattenLinear (track : Track) (ppq swing_percent : ℤ) :
    Except String (List Note) :=
  listMapE (fun n =>
    mkNote (applySwingTick n.start ppq swing_percent) n.duration n.pitch
      n.velocity n.role (some n.chance) n.mute (some n.accent)
      (some n.glide_ticks)) track.notes

/-- util/notes.py flatten_track_notes: clips × patterns (or legacy linear
notes) → absolute notes with swing, then role expansion, then humanize. -/
def flattenTrackNotes (jt jv : ℕ → ℤ) (project : Project) (track_index : ℤ)
    (track : Track) (ppqOpt swingOpt : Option ℤ)
    (expand_roles apply_humanize : Bool) : Except String (List Note) :=
  let ppq := ppqOpt.getD project.ppq
  let swing := swingOpt.getD project.swing_percent
  match
    (if ¬track.clips.isEmpty ∧ ¬track.patterns.isEmpty then
      flattenClips project track_index track ppq swing
    else
      flattenLinear track ppq swing) with
  | .error e => .error e
  | .ok abs_notes =>
    match
      (if expand_roles then expandRoleNotes track abs_notes
       else .ok abs_notes) with
    | .error e => .error e
    | .ok expanded =>
      if apply_humanize then
        humanizeNotes jt jv
          ⟨track.humanize_timing, track.humanize_velocity, track.humanize_seed⟩
          expanded
      else .ok expanded

/-- util/notes.py note_seed_base. -/
def noteSeedBase (track : Track) (track_index : ℤ) (extra_seed : ℤ) : ℤ :=
  track.humanize_seed * 1000003 + track_index * 9176 + extra_seed

/-- util/notes.py apply_note_chance.  rng models random.Random(r).random() as
a function of the integer seed r.  Note the `float(... or 1.0)` re-read: a
chance of exactly 0 is falsy and is treated as 1 (the note is kept). -/
def applyNoteChance (rng : ℤ → ℚ) (notes : List Note) (seed_base : ℤ) :
    List Note :=
  match notes with
  | [] => []
  | n :: rest =>
    let keepRest := applyNoteChance rng rest seed_base
    if n.mute then keepRest
    else
      let chance := if n.chance = 0 then 1 else n.chance
      if chance < 1 then
        let r := (seed_base + n.start * 31 + n.pitch * 131).emod (2 ^ 31)
        if rng r > chance then keepRest else n :: keepRest
      else n :: keepRest

/-! ## io/midi.py -/

/-- A mido message, reduced to the constructors the emitter produces. -/
inductive Msg where
  | program_change (program channel : ℤ)
  | control_change (control value channel : ℤ)
  | note_on (note velocity channel : ℤ)
  | note_off (note velocity channel : ℤ)
deriving Repr, DecidableEq

/-- Whether a message has mido type "note_off". -/
def Msg.isOff : Msg → Bool
  | .note_off _ _ _ => true
  | _ => false

/-- Whether a message has mido type "note_on". -/
def Msg.isOn : Msg → Bool
  | .note_on _ _ _ => true
  | _ => false

/-- The sort key of io/midi.py:138: (time, 1 if note_off else 0). -/
def evKey (e : ℤ × Msg) : ℤ × ℤ := (e.1, if e.2.isOff then 1 else 0)

/-- Strict comparison on the midi.py:138 sort key. -/
def evLtB (a b : ℤ × Msg) : Bool := lex2Lt (evKey a) (evKey b)

/-- io/midi.py _iter_track_events before the final sort: the five setup
messages at time 0, then, for each flattened / expanded / humanized note that
survives mute and chance gating, a note_on at start (with effective velocity)
followed by a note_off at start + duration.  The chance re-read uses
`float(... or 1.0)`, so chance 0 is treated as 1 (kept), as in the source. -/
def iterTrackRawEvents (rng : ℤ → ℚ) (jt jv : ℕ → ℤ) (project : Project)
    (track_index : ℤ) (track : Track) (ppq swing_percent : ℤ) :
    Except String (List (ℤ × Msg)) := do
  let setup : List (ℤ × Msg) :=
    [(0, .program_change track.program track.channel),
     (0, .control_change 7 track.volume track.channel),
     (0, .control_change 10 track.pan track.channel),
     (0, .control_change 91 track.reverb track.channel),
     (0, .control_change 93 track.chorus track.channel)]
  let abs_notes ←
    if ¬track.clips.isEmpty ∧ ¬track.patterns.isEmpty then
      flattenClips project track_index track ppq swing_percent
    else
      flattenLinear track ppq swing_percent
  let expanded ← expandRoleNotes track abs_notes
  let hum ← humanizeNotes jt jv
    ⟨track.humanize_timing, track.humanize_velocity, track.humanize_seed⟩
    expanded
  let seed_base := track.humanize_seed * 1000003 + track_index * 9176
  let noteEvents := hum.flatMap (fun n =>
    if n.mute then []
    else
      let chance := if n.chance = 0 then 1 else n.chance
      if chance < 1 ∧
          rng ((seed_base + n.start * 31 + n.pitch * 131).emod (2 ^ 31)) > chance
      then []
      else
        [(n.start, .note_on n.pitch n.effectiveVelocity track.channel),
         (n.endTick, .note_off n.pitch 0 track.channel)])
  .ok (setup ++ noteEvents)

/-- io/midi.py _iter_track_events: the raw event list sorted (stably) by
(time, 1 if note_off else 0), i.e. note_on sorts before note_off of the same
tick. -/
def iterTrackEvents (rng : ℤ → ℚ) (jt jv : ℕ → ℤ) (project : Project)
    (track_index : ℤ) (track : Track) (ppq swing_percent : ℤ) :
    Except String (List (ℤ × Msg)) :=
  (iterTrackRawEvents rng jt jv project track_index track ppq swing_percent).map
    (insSortBy evLtB)

/-! ## util/limits.py and util/validate.py -/

def MAX_TRACKS : ℕ := 16
def MAX_PATTERNS_PER_TRACK : ℕ := 128
def MAX_CLIPS_PER_TRACK : ℕ := 2048
def MAX_NOTES_PER_TRACK : ℕ := 50000
def MAX_NOTES_PER_PATTERN : ℕ := 8192
def MAX_TICK : ℤ := 10000000

/-- Ordering on Option String used by the dataclass tuple comparison when
sorting notes (Python would raise comparing none with a string; notes built
by the constructor and compared here agree on role presence whenever the
leading fields tie, so the none-first choice is never observable). -/
def optStrLt : Option String → Option String → Bool
  | none, some _ => true
  | some a, some b => decide (a < b)
  | _, _ => false

/-- False < True (Python bool ordering). -/
def boolLt (a b : Bool) : Bool := !a && b

/-- The dataclass(order=True) comparison on Note: lexicographic over the
field tuple (start, duration, pitch, velocity, role, chance, mute, accent,
glide_ticks), used by sorted(notes). -/
def noteLt (a b : Note) : Bool :=
  if a.start ≠ b.start then a.start < b.start
  else if a.duration ≠ b.duration then a.duration < b.duration
  else if a.pitch ≠ b.pitch then a.pitch < b.pitch
  else if a.velocity ≠ b.velocity then a.velocity < b.velocity
  else if a.role ≠ b.role then optStrLt a.role b.role
  else if a.chance ≠ b.chance then a.chance < b.chance
  else if a.mute ≠ b.mute then boolLt a.mute b.mute
  else if a.accent ≠ b.accent then a.accent < b.accent
  else a.glide_ticks < b.glide_ticks

/-- util/validate.py loop/render region normalization: when both endpoints
are present they are kept only if end > start, start ≥ 0 and end ≤ MAX_TICK;
otherwise both are cleared.  A partially-present region is left untouched. -/
def normRegion (a b : Option ℤ) : Option ℤ × Option ℤ :=
  match a, b with
  | some x, some y =>
    if y ≤ x ∨ x < 0 ∨ y > MAX_TICK then (none, none) else (some x, some y)
  | _, _ => (a, b)

/-- util/validate.py per-note sanity pass (both for track notes and pattern
notes): clamp pitch and velocity, normalize the role, clamp start to
[0, MAX_TICK] and duration to [1, MAX_TICK]. -/
def fixNote (n : Note) : Note :=
  { n with
    pitch := clamp n.pitch 0 127,
    velocity := clamp n.velocity 1 127,
    role := normalizeRole n.role,
    start := if n.start < 0 then 0 else if n.start > MAX_TICK then MAX_TICK else n.start,
    duration := if n.duration ≤ 0 then 1 else if n.duration > MAX_TICK then MAX_TICK else n.duration }

/-- util/validate.py per-pattern sanity pass: a non-positive length becomes
ppq·4, lengths are clamped to [1, MAX_TICK], oversized note lists are
truncated in sorted order, and every note is sanitized. -/
def fixPattern (ppq : ℤ) (pat : Pattern) : Pattern :=
  let len0 := if pat.length ≤ 0 then ppq * 4 else pat.length
  let len := clamp len0 1 MAX_TICK
  let notes0 :=
    if pat.notes.length > MAX_NOTES_PER_PATTERN then
      (insSortBy noteLt pat.notes).take MAX_NOTES_PER_PATTERN
    else pat.notes
  { pat with length := len, notes := notes0.map fixNote }

/-- util/validate.py per-track pass, in source order: clamp the mixer fields,
normalize sampler / preset / instrument / sample pack (forcing sampler to
"drums" when a sample pack survives), normalize the bus, resolve the drum
kit, clamp glide and humanize, truncate oversized note / pattern / clip
collections deterministically, and sanitize all notes. -/
def fixTrack (ppq : ℤ) (t : Track) : Track :=
  let channel := clamp t.channel 0 15
  let program := clamp t.program 0 127
  let volume := clamp t.volume 0 127
  let pan := clamp t.pan 0 127
  let reverb := clamp t.reverb 0 127
  let chorus := clamp t.chorus 0 127
  let sampler1 : Option String :=
    match t.sampler with
    | none => none
    | some sm =>
      let s := sm.trim.toLower
      if s = "drums" ∨ s = "808" then some s else none
  let preset := if t.sampler_preset = "" then "default" else t.sampler_preset
  let instrument : Option InstrumentSpec :=
    match t.instrument with
    | none => none
    | some i =>
      let iid := i.id.trim
      if iid = "" then none
      else
        let p0 := (if i.preset = "" then "default" else i.preset).trim
        some { i with id := iid, preset := if p0 = "" then "default" else p0 }
  let pack0 : Option SamplePackSpec :=
    match t.sample_pack with
    | none => none
    | some sp =>
      let sid := sp.id.map (fun s =>
        let s2 := s.trim; s2)
      let sid2 : Option String := match sid with
        | some s => if s = "" then none else some s
        | none => none
      let spath := sp.path.map String.trim
      let spath2 : Option String := match spath with
        | some s => if s = "" then none else some s
        | none => none
      if sid2.isNone ∧ spath2.isNone then none
      else
        let g0 := sp.gain_db
        let g1 := if g0 < -24 then -24 else g0
        let g2 := if g1 > 24 then 24 else g1
        some { sp with id := sid2, path := spath2, gain_db := g2 }
  let sampler2 := if pack0.isSome ∧ sampler1 ≠ some "drums" then some "drums" else sampler1
  let bus0 := if t.bus = "" then "music" else t.bus
  let bus1 := bus0.trim.toLower
  let bus := if bus1 = "" then "music" else bus1
  let kitName := (getDrumKit t.drum_kit).name
  let glide := clamp t.glide_ticks 0 (ppq * 2)
  let htiming := clamp t.humanize_timing 0 (Int.fdiv ppq 8)
  let hvel := clamp t.humanize_velocity 0 30
  let notes0 :=
    if t.notes.length > MAX_NOTES_PER_TRACK then
      (insSortBy noteLt t.notes).take MAX_NOTES_PER_TRACK
    else t.notes
  let patterns0 :=
    if t.patterns.length > MAX_PATTERNS_PER_TRACK then
      let keys := (insSortBy (fun a b : String => decide (a < b))
        (t.patterns.map Prod.fst)).take MAX_PATTERNS_PER_TRACK
      keys.filterMap (fun k => (t.patterns.lookup k).map (fun v => (k, v)))
    else t.patterns
  let clips0 :=
    if t.clips.length > MAX_CLIPS_PER_TRACK then t.clips.take MAX_CLIPS_PER_TRACK
    else t.clips
  { t with
    channel := channel, program := program, volume := volume, pan := pan,
    reverb := reverb, chorus := chorus, sampler := sampler2,
    sampler_preset := preset, instrument := instrument, sample_pack := pack0,
    bus := bus, drum_kit := kitName, glide_ticks := glide,
    humanize_timing := htiming, humanize_velocity := hvel,
    notes := notes0.map fixNote,
    patterns := patterns0.map (fun kp => (kp.1, fixPattern ppq kp.2)),
    clips := clips0 }

/-- util/validate.py validate_and_migrate_project: clamp the project fields,
normalize the loop and render regions, truncate to MAX_TRACKS, and run the
per-track pass with the clamped ppq. -/
def validateAndMigrateProject (p : Project) : Project :=
  let tempo := clamp p.tempo_bpm 20 400
  let ppq := clamp p.ppq 24 1920
  let swing := clamp p.swing_percent 0 75
  let tracks0 :=
    if p.tracks.length > MAX_TRACKS then p.tracks.take MAX_TRACKS else p.tracks
  let lr := normRegion p.loop_start p.loop_end
  let rr := normRegion p.render_start p.render_end
  { p with
    tempo_bpm := tempo, ppq := ppq, swing_percent := swing,
    loop_start := lr.1, loop_end := lr.2,
    render_start := rr.1, render_end := rr.2,
    tracks := tracks0.map (fixTrack ppq) }

/-! ## prompt/similarity.py -/

/-- The six count histograms of prompt/similarity.py fingerprint_project
before L2 normalization.  Every increment adds 1.0, so the entries are
natural numbers. -/
structure FingerCounts where
  pc : List ℕ
  step : List ℕ
  intervals : List ℕ
  vel : List ℕ
  evHash : List ℕ
  trackEvHash : List ℕ
deriving Repr, DecidableEq

/-- Add one to the histogram bin at index i. -/
def bump (l : List ℕ) (i : ℕ) : List ℕ := l.set i (l.getD i 0 + 1)

/-- The counted events of one track, in iteration order, as
(start, pitch, velocity): arranged clips × patterns when both are non-empty
(using max(1, repeats) repetitions and no variation resolution), else the
linear notes; muted notes and notes with chance ≤ 0 are skipped. -/
def trackFpEvents (t : Track) : List (ℤ × ℤ × ℤ) :=
  if ¬t.patterns.isEmpty ∧ ¬t.clips.isEmpty then
    t.clips.flatMap (fun c =>
      match t.patterns.lookup c.pattern with
      | none => []
      | some pat =>
        (List.range (max 1 c.repeats).toNat).flatMap (fun rep =>
          pat.notes.filterMap (fun n =>
            if n.mute ∨ n.chance ≤ 0 then none
            else some (c.start + (rep : ℤ) * pat.length + n.start, n.pitch, n.velocity))))
  else
    t.notes.filterMap (fun n =>
      if n.mute ∨ n.chance ≤ 0 then none
      else some (n.start, n.pitch, n.velocity))

/-- All counted events of a project with their track index, in iteration
order. -/
def fpEvents (p : Project) : List (ℕ × ℤ × ℤ × ℤ) :=
  p.tracks.enum.flatMap (fun it =>
    (trackFpEvents it.2).map (fun e => (it.1, e.1, e.2.1, e.2.2)))

/-- The velocity bin: min(7, (clamp(v,1,127) - 1) // 16). -/
def velBin (v : ℤ) : ℕ := (min 7 ((clamp v 1 127 - 1).fdiv 16)).toNat

/-- The 16th-note step bin of a start tick. -/
def stepBin (sixteenth start : ℤ) : ℕ := ((start.fdiv sixteenth).emod 16).toNat

/-- prompt/similarity.py fingerprint_project, count phase. -/
def fingerprintCounts (p : Project) : FingerCounts :=
  let sixteenth : ℤ := max 1 (Int.fdiv p.ppq 4)
  let evs := fpEvents p
  let base : FingerCounts :=
    ⟨List.replicate 12 0, List.replicate 16 0, List.replicate 25 0,
     List.replicate 8 0, List.replicate 64 0, List.replicate 64 0⟩
  let counted := evs.foldl (fun (f : FingerCounts) (e : ℕ × ℤ × ℤ × ℤ) =>
    let ti := e.1
    let start := e.2.1
    let pitch := e.2.2.1
    let v := e.2.2.2
    let te := (((ti : ℤ) * 1315423911 + ((start.fdiv sixteenth).emod 16) * 12 +
      pitch.emod 12).emod 64).toNat
    { f with
      pc := bump f.pc (pitch.emod 12).toNat,
      step := bump f.step (stepBin sixteenth start),
      vel := bump f.vel (velBin v),
      trackEvHash := bump f.trackEvHash te }) base
  let allNotes :=
    insSortBy (fun a b : ℤ × ℤ => decide (a.1 < b.1))
      (evs.map (fun (e : ℕ × ℤ × ℤ × ℤ) => (e.2.1, e.2.2.1)))
  let pairs := allNotes.zip allNotes.tail
  pairs.foldl (fun (f : FingerCounts) (pr : (ℤ × ℤ) × (ℤ × ℤ)) =>
    let s1 := pr.1.1
    let p1 := pr.1.2
    let s2 := pr.2.1
    let p2 := pr.2.2
    let iv := max (-12) (min 12 (p2 - p1))
    let a := ((s1.fdiv sixteenth).emod 16) * 12 + p1.emod 12
    let b := ((s2.fdiv sixteenth).emod 16) * 12 + p2.emod 12
    let h := ((a * 1315423911 + b * 2654435761).emod 64).toNat
    { f with
      intervals := bump f.intervals (iv + 12).toNat,
      evHash := bump f.evHash h }) counted

/-- Cast a count histogram to real entries. -/
def castR (v : List ℕ) : List ℝ := v.map (fun x => (x : ℝ))

/-- prompt/similarity.py _cos: the dot product (the inputs the source feeds
it are already L2-normalized). -/
noncomputable def dotR (a b : List ℝ) : ℝ := (List.zipWith (· * ·) a b).sum

/-- prompt/similarity.py _normalize: divide by the L2 norm, or return the
all-zero tuple when the norm is ≤ 1e-12 (for count histograms the norm is 0
or ≥ 1, so the threshold is exactly the zero test; the binary64 literal
1e-12 differs from 10⁻¹² only below that scale). -/
noncomputable def normalizeR (v : List ℕ) : List ℝ :=
  let c := castR v
  let norm := Real.sqrt (dotR c c)
  if norm ≤ 1 / 10 ^ 12 then c.map (fun _ => 0) else c.map (fun x => x / norm)

/-- prompt/similarity.py project_similarity: the mean of the six cosine
similarities, clamped to [0,1]. -/
noncomputable def projectSimilarity (a b : Project) : ℝ :=
  let fa := fingerprintCounts a
  let fb := fingerprintCounts b
  let sims : List ℝ :=
    [dotR (normalizeR fa.pc) (normalizeR fb.pc),
     dotR (normalizeR fa.step) (normalizeR fb.step),
     dotR (normalizeR fa.intervals) (normalizeR fb.intervals),
     dotR (normalizeR fa.vel) (normalizeR fb.vel),
     dotR (normalizeR fa.evHash) (normalizeR fb.evHash),
     dotR (normalizeR fa.trackEvHash) (normalizeR fb.trackEvHash)]
  let s := sims.sum / (sims.length : ℝ)
  max 0 (min 1 s)

/-- All six count histograms have at least one populated bin (true for any
project with at least two counted notes). -/
def FingerCounts.allPopulated (f : FingerCounts) : Prop :=
  f.pc.any (· ≠ 0) = true ∧ f.step.any (· ≠ 0) = true ∧
  f.intervals.any (· ≠ 0) = true ∧ f.vel.any (· ≠ 0) = true ∧
  f.evHash.any (· ≠ 0) = true ∧ f.trackEvHash.any (· ≠ 0) = true

instance (f : FingerCounts) : Decidable f.allPopulated := by
  unfold FingerCounts.allPopulated; infer_instance

/-! ## audio/drum_render_sanity.py and audio/render.py -/

/-- Project.from_dict(project.to_dict()): a deep copy.  On a well-typed
project the only observable normalization is that to_dict serializes every
notes list (track-level and per-pattern) in sorted order. -/
def dictRoundtripCopy (p : Project) : Project :=
  { p with tracks := p.tracks.map (fun t =>
    { t with
      notes := insSortBy noteLt t.notes,
      patterns := t.patterns.map (fun kp =>
        (kp.1, { kp.2 with notes := insSortBy noteLt kp.2.notes })) }) }

/-- The channel-9 relocation loop of convert_sampler_drums_to_gm: move
non-drum-sampler tracks off channel 9 to the first free channel, tracking the
used-channel set; a second relocation after 9 was already removed would raise
KeyError in Python. -/
def convertShuffleGo : List Track → List ℤ → Except String (List Track)
  | [], _ => .ok []
  | t :: rest, used =>
    if t.channel = 9 ∧ t.sampler ≠ some "drums" then
      match (List.range 16).find? (fun ch => ch ≠ 9 && !used.contains (ch : ℤ)) with
      | some ch =>
        if used.contains 9 then do
          let rest2 ← convertShuffleGo rest ((used.erase 9).concat (ch : ℤ))
          .ok ({ t with channel := (ch : ℤ) } :: rest2)
        else .error "KeyError: 9"
      | none => do
        let rest2 ← convertShuffleGo rest used
        .ok (t :: rest2)
    else do
      let rest2 ← convertShuffleGo rest used
      .ok (t :: rest2)

/-- audio/drum_render_sanity.py convert_sampler_drums_to_gm, channel step. -/
def convertShuffle (tracks : List Track) : Except String (List Track) :=
  let used := (tracks.map (·.channel)).dedup
  if used.contains 9 then convertShuffleGo tracks used else .ok tracks

/-- dict keyed by (start, pitch) keeping the highest-velocity note per key
(strictly greater replaces), values in first-seen key order — the `best`
de-duplication inside convert_sampler_drums_to_gm. -/
def dedupBest (l : List Note) : List Note :=
  (l.foldl (fun (acc : List ((ℤ × ℤ) × Note)) n =>
    let k := (n.start, n.pitch)
    match acc.lookup k with
    | none => acc.concat (k, n)
    | some cur =>
      if n.velocity > cur.velocity then
        acc.map (fun kv => if kv.1 = k then (k, n) else kv)
      else acc) []).map Prod.snd

/-- The _expand helper of convert_sampler_drums_to_gm: expand each role note
through the gm kit, re-construct with role=None (dataclasses.replace re-runs
the validating constructor), de-duplicate by (start, pitch) keeping the
loudest layer, and sort by (start, pitch, -velocity). -/
def convertExpand (gm_track : Track) (notes : List Note) :
    Except String (List Note) := do
  let expanded ← (listMapE (fun n => do
      let ls ← expandRoleNote gm_track n
      listMapE (fun nn =>
        mkNote nn.start nn.duration nn.pitch nn.velocity none (some nn.chance)
          nn.mute (some nn.accent) (some nn.glide_ticks)) ls) notes).map
    List.flatten
  let best := dedupBest expanded
  .ok (insSortBy (fun a b =>
    lex3Lt (a.start, a.pitch, -a.velocity) (b.start, b.pitch, -b.velocity)) best)

/-- The per-track conversion of convert_sampler_drums_to_gm. -/
def convertTrack (t : Track) : Except String Track :=
  if t.sampler ≠ some "drums" then .ok t
  else do
    let gm := { t with drum_kit := "gm_basic" }
    let newPatterns ← listMapE (fun kp => do
      let ns ← convertExpand gm kp.2.notes
      (.ok (kp.1, { kp.2 with notes := ns }) : Except String (String × Pattern)))
      t.patterns
    let newNotes ← convertExpand gm t.notes
    .ok { t with
      sampler := none, sampler_preset := "default", drum_kit := "gm_basic",
      program := 0, channel := 9, reverb := 0, chorus := 0,
      patterns := newPatterns, notes := newNotes }

/-- audio/drum_render_sanity.py convert_sampler_drums_to_gm. -/
def convertSamplerDrumsToGm (p : Project) : Except String Project := do
  let p1 := dictRoundtripCopy p
  let tracks1 ← convertShuffle p1.tracks
  let tracks2 ← listMapE convertTrack tracks1
  .ok { p1 with tracks := tracks2 }

/-- The outcome of render_project_wav, abstracting the produced files:
either the mix-engine path, or the direct path with the indices of the
tracks for which a per-track sampler / instrument WAV was written. -/
inductive RenderPlan where
  | viaMixEngine
  | mixed (samplerWavs instrumentWavs : List ℕ) (fluidsynthUsed : Bool)
deriving Repr, DecidableEq

/-- The keyword-only parameters of audio/sampler.py:236
def render_sampler_track(track, *, project, sample_rate). -/
def renderSamplerTrackKwParams : List String := ["project", "sample_rate"]

/-- The keyword arguments supplied at the call site audio/render.py:136
render_sampler_track(t, project=project, sample_rate=sample_rate,
track_index=i). -/
def renderSamplerTrackCallKwArgs : List String :=
  ["project", "sample_rate", "track_index"]

/-- Python call binding for keyword arguments: a provided keyword that is not
among the declared keyword parameters raises TypeError. -/
def pyBindKwargs (accepted provided : List String) : Except String Unit :=
  if provided.all (fun k => accepted.contains k) then .ok ()
  else .error "TypeError: render_sampler_track() got an unexpected keyword argument: track_index"

/-- The mute/solo resolution of render.py _active_tracks (identical to
io/midi.py _apply_mute_solo). -/
def activeTrackIdx (p : Project) : List ℕ :=
  let soloed := (p.tracks.enum.filter (fun it => it.2.solo)).map Prod.fst
  if ¬soloed.isEmpty then soloed
  else (p.tracks.enum.filter (fun it => !it.2.mute)).map Prod.fst

/-- The ids registered in instruments/registry.py. -/
def knownInstrumentIds : List String := ["synth.basic", "pluck.karplus", "noise.pad"]

/-- audio/render.py render_project_wav on the direct (non-mix-engine) path.
External effects (file writes, FluidSynth, ffmpeg) are outside the model; the
in-repo work they consume is still evaluated: the MIDI export runs
_iter_track_events for every allowed track, the sampler step performs the
render_sampler_track call binding for every active sampler track, and the
instrument step resolves the plugin id and flattens the notes.  autoChoice is
the externally-scored decision of choose_drum_render_mode, consulted only in
"auto" mode. -/
def renderProjectWav (rng : ℤ → ℚ) (jt jv : ℕ → ℤ) (autoChoice : String)
    (p : Project) (drum_mode : String) : Except String RenderPlan :=
  if ¬p.mix.isEmpty then .ok .viaMixEngine
  else
    let hasPack := p.tracks.any (fun t => t.sample_pack.isSome)
    let dm := if hasPack ∧ drum_mode = "gm" then "sampler" else drum_mode
    if ¬(dm = "auto" ∨ dm = "sampler" ∨ dm = "gm") then
      .error "ValueError: drum_mode must be: gm|auto|sampler"
    else do
      let proj ←
        if dm = "gm" then convertSamplerDrumsToGm p
        else if dm = "auto" ∧ autoChoice = "gm" then convertSamplerDrumsToGm p
        else .ok p
      let active := activeTrackIdx proj
      let allowed := (proj.tracks.enum.filter (fun it =>
        active.contains it.1 && it.2.sampler.isNone && it.2.instrument.isNone)).map
        Prod.fst
      let _ ← listMapE (fun (it : ℕ × Track) =>
          if allowed.contains it.1 then
            iterTrackEvents rng jt jv proj (it.1 : ℤ) it.2 proj.ppq
              proj.swing_percent
          else .ok []) proj.tracks.enum
      let samplerWavs ← listMapE (fun (it : ℕ × Track) =>
          if !(active.contains it.1) then .ok []
          else if it.2.instrument.isSome then .ok []
          else if it.2.sampler.isNone then .ok []
          else do
            let _ ← pyBindKwargs renderSamplerTrackKwParams
              renderSamplerTrackCallKwArgs
            (.ok [it.1] : Except String (List ℕ))) proj.tracks.enum
      let instrumentWavs ← listMapE (fun (it : ℕ × Track) =>
          if !(active.contains it.1) then .ok []
          else
            match it.2.instrument with
            | none => .ok []
            | some spec =>
              if !(knownInstrumentIds.contains spec.id.trim) then
                .error "ValueError: unknown instrument id"
              else do
                let ns ← flattenTrackNotes jt jv proj (it.1 : ℤ) it.2
                  (some proj.ppq) (some proj.swing_percent) true true
                let _ := applyNoteChance rng ns (noteSeedBase it.2 (it.1 : ℤ) 0)
                (.ok [it.1] : Except String (List ℕ))) proj.tracks.enum
      .ok (.mixed samplerWavs.flatten instrumentWavs.flatten (¬allowed.isEmpty))

/-! ## Order predicates used by the claims -/

/-- Weak lexicographic order on integer pairs. -/
def pairLe (p q : ℤ × ℤ) : Prop := p.1 < q.1 ∨ (p.1 = q.1 ∧ p.2 ≤ q.2)

instance (p q : ℤ × ℤ) : Decidable (pairLe p q) := by
  unfold pairLe; infer_instance

/-- The MIDI event ordering asserted by the specification: absolute tick
ascending and, at equal ticks, every note_off before every note_on — i.e. no
note_on is ever followed by a note_off of the same tick. -/
def specMidiOrder (evs : List (ℤ × Msg)) : Prop :=
  evs.Pairwise (fun a b => a.1 ≤ b.1 ∧ (a.1 = b.1 → ¬(a.2.isOn ∧ b.2.isOff)))

instance (evs : List (ℤ × Msg)) : Decidable (specMidiOrder evs) := by
  unfold specMidiOrder; infer_instance

/-- The ordering the emitter actually produces: absolute tick ascending and,
at equal ticks, every note_on before every note_off. -/
def codeMidiOrder (evs : List (ℤ × Msg)) : Prop :=
  evs.Pairwise (fun a b => a.1 ≤ b.1 ∧ (a.1 = b.1 → ¬(a.2.isOff ∧ b.2.isOn)))

/-! ## Concrete fixtures for counterexamples and witnesses -/

/-- A track with every field already in validated, normalized form. -/
def trkBase : Track :=
  { name := "T", channel := 1, program := 0, volume := 100, pan := 64,
    reverb := 0, chorus := 0, sampler := none, instrument := none,
    sample_pack := none, drum_kit := "trap_hard", sampler_preset := "default",
    glide_ticks := 0, humanize_timing := 0, humanize_velocity := 0,
    humanize_seed := 0, bus := "music", notes := [], patterns := [],
    clips := [], mute := false, solo := false }

/-- A project shell with no swing and no mix spec. -/
def prjBase : Project :=
  { name := "x", tempo_bpm := 120, ppq := 480, tracks := [],
    sections := [], variations := [], swing_percent := 0,
    loop_start := none, loop_end := none, render_start := none,
    render_end := none, mix := [] }

/-- Two back-to-back quarter notes: the second starts exactly when the first
ends, producing a note_on and a note_off at the same tick 480. -/
def trkTwoNotes : Track :=
  { trkBase with notes :=
    [⟨0, 480, 60, 100, none, 1, false, 1, 0⟩,
     ⟨480, 480, 62, 100, none, 1, false, 1, 0⟩] }

/-- The project around trkTwoNotes. -/
def prjTwoNotes : Project := { prjBase with tracks := [trkTwoNotes] }

/-- Two tracks sharing MIDI channel 5. -/
def prjDupChannels : Project :=
  { prjBase with tracks :=
    [{ trkBase with channel := 5 }, { trkBase with name := "U", channel := 5 }] }

/-- An active 808-sampler track with one note. -/
def trk808 : Track :=
  { trkBase with
    sampler := some "808",
    notes := [⟨0, 480, 36, 100, none, 1, false, 1, 0⟩] }

/-- A project whose only track is an 808 sampler track (empty mix spec). -/
def prj808 : Project := { prjBase with tracks := [trk808] }

/-- A snare role note with velocity 100 (the §8 scenario). -/
def snareNote : Note := ⟨0, 120, 0, 100, some "snare", 1, false, 1, 0⟩

/-- The same snare role note with chance exactly 0. -/
def snareNoteChance0 : Note := ⟨0, 120, 0, 100, some "snare", 0, false, 1, 0⟩

/-- A plain note with chance exactly 0. -/
def noteChance0 : Note := ⟨1200, 120, 60, 100, none, 0, false, 1, 0⟩

/-- An empty project (no tracks, hence no counted notes). -/
def prjEmpty : Project := prjBase

/-- An arranged track: one pattern with a snare role note and a hat note,
placed once, under 50% swing (the §8 flatten-swing shape). -/
def trkArr : Track :=
  { trkBase with
    patterns := [("a", ⟨"a", 1920,
      [⟨0, 120, 0, 100, some "snare", 1, false, 1, 0⟩,
       ⟨120, 120, 42, 80, none, 1, false, 1, 0⟩]⟩)],
    clips := [⟨"a", 0, 1⟩] }

/-- The project around trkArr, with swing 50. -/
def prjArr : Project := { prjBase with swing_percent := 50, tracks := [trkArr] }

/-- A project with two notes on one track (all six fingerprint histograms
are populated). -/
def prjFp : Project :=
  { prjBase with tracks := [{ trkBase with notes :=
    [⟨0, 480, 60, 100, none, 1, false, 1, 0⟩,
     ⟨480, 480, 62, 100, none, 1, false, 1, 0⟩] }] }

/-- A constant stand-in for the external PRNG draw (in [0,1)). -/
def rngHalf : ℤ → ℚ := fun _ => 1/2

/-- A zero jitter stream. -/
def jzero : ℕ → ℤ := fun _ => 0

/-! ## Helper lemmas -/

theorem listMapE_ok_mem {α β : Type} {f : α → Except String β} {l : List α}
    {ys : List β} (h : listMapE f l = .ok ys) {y : β} (hy : y ∈ ys) :
    ∃ x ∈ l, f x = .ok y := by
  induction l generalizing ys with
  | nil =>
    unfold listMapE at h
    cases h
    simp at hy
  | cons a as ih =>
    unfold listMapE at h
    cases hfa : f a with
    | error e => rw [hfa] at h; cases h
    | ok b =>
      rw [hfa] at h
      cases hrest : listMapE f as with
      | error e => rw [hrest] at h; cases h
      | ok bs =>
        rw [hrest] at h
        cases h
        rcases List.mem_cons.mp hy with hyb | hybs
        · exact ⟨a, List.mem_cons_self a as, by rw [hfa, hyb]⟩
        · rcases ih hrest hybs with ⟨x, hxl, hfx⟩
          exact ⟨x, List.mem_cons_of_mem a hxl, hfx⟩

theorem mem_insertOrd {α : Type} {lt : α → α → Bool} {x y : α} {l : List α}
    (h : y ∈ insertOrd lt x l) : y = x ∨ y ∈ l := by
  induction l with
  | nil => simpa [insertOrd] using h
  | cons a as ih =>
    unfold insertOrd at h
    by_cases hlt : lt a x = true
    · simp [hlt] at h
      rcases h with h | h
      · exact Or.inr (by simp [h])
      · rcases ih h with h2 | h2
        · exact Or.inl h2
        · exact Or.inr (List.mem_cons_of_mem a h2)
    · simp [hlt] at h
      rcases h with h | h | h
      · exact Or.inl h
      · exact Or.inr (by simp [h])
      · exact Or.inr (List.mem_cons_of_mem a h)

theorem mem_insSortBy {α : Type} {lt : α → α → Bool} {y : α} {l : List α}
    (h : y ∈ insSortBy lt l) : y ∈ l := by
  induction l with
  | nil => simp [insSortBy] at h
  | cons a as ih =>
    unfold insSortBy at h
    rcases mem_insertOrd h with h2 | h2
    · simp [h2]
    · exact List.mem_cons_of_mem a (ih h2)

theorem not_lex2Lt_iff {p q : ℤ × ℤ} : lex2Lt p q = false ↔ pairLe q p := by
  unfold lex2Lt pairLe
  rcases p with ⟨p1, p2⟩
  rcases q with ⟨q1, q2⟩
  simp only [Bool.or_eq_false_iff, Bool.and_eq_false_iff,
    decide_eq_false_iff_not]
  constructor
  · rintro ⟨h1, h2⟩
    rcases h2 with h2 | h2
    · omega
    · omega
  · intro h
    omega

theorem pairLe_trans {p q r : ℤ × ℤ} (h1 : pairLe p q) (h2 : pairLe q r) :
    pairLe p r := by
  unfold pairLe at *
  omega

theorem lex2Lt_true_pairLe {p q : ℤ × ℤ} (h : lex2Lt p q = true) :
    pairLe p q := by
  unfold lex2Lt at h
  unfold pairLe
  simp only [Bool.or_eq_true, Bool.and_eq_true, decide_eq_true_eq] at h
  omega

/-- Inserting into a key-sorted list keeps it key-sorted. -/
theorem pairwise_insertOrd {α : Type} (k : α → ℤ × ℤ) (x : α) (l : List α)
    (h : l.Pairwise (fun a b => pairLe (k a) (k b))) :
    (insertOrd (fun a b => lex2Lt (k a) (k b)) x l).Pairwise
      (fun a b => pairLe (k a) (k b)) := by
  induction l with
  | nil => simp [insertOrd]
  | cons a as ih =>
    rcases List.pairwise_cons.mp h with ⟨ha, has⟩
    unfold insertOrd
    by_cases hlt : lex2Lt (k a) (k x) = true
    · simp only [hlt, if_true]
      refine List.pairwise_cons.mpr ⟨?_, ih has⟩
      intro b hb
      rcases mem_insertOrd hb with hb2 | hb2
      · subst hb2
        exact lex2Lt_true_pairLe hlt
      · exact ha b hb2
    · simp only [hlt, if_false]
      have hxa : pairLe (k x) (k a) :=
        not_lex2Lt_iff.mp (Bool.eq_false_iff.mpr hlt)
      refine List.pairwise_cons.mpr ⟨?_, h⟩
      intro b hb
      rcases List.mem_cons.mp hb with hb2 | hb2
      · subst hb2; exact hxa
      · exact pairLe_trans hxa (ha b hb2)

/-- Insertion sort produces a key-sorted list. -/
theorem pairwise_insSortBy {α : Type} (k : α → ℤ × ℤ) (l : List α) :
    (insSortBy (fun a b => lex2Lt (k a) (k b)) l).Pairwise
      (fun a b => pairLe (k a) (k b)) := by
  induction l with
  | nil => simp [insSortBy]
  | cons a as ih =>
    unfold insSortBy
    exact pairwise_insertOrd k a _ ih

theorem exceptMap_ok_inv {α β : Type} {e : Except String α} {f : α → β}
    {b : β} (h : e.map f = .ok b) : ∃ a, e = .ok a ∧ b = f a := by
  cases e with
  | error s => simp [Except.map] at h
  | ok a =>
    refine ⟨a, rfl, ?_⟩
    simp [Except.map] at h
    exact h.symm

theorem mkNote_ok_inv {s d pi v : ℤ} {role : Option String} {c : Option ℚ}
    {m : Bool} {a : Option ℚ} {g : Option ℤ} {n : Note}
    (h : mkNote s d pi v role c m a g = .ok n) :
    (0 ≤ pi ∧ pi ≤ 127 ∧ 1 ≤ v ∧ v ≤ 127 ∧ 0 ≤ s ∧ 1 ≤ d) ∧
    n.start = s ∧ n.duration = d ∧ n.pitch = pi ∧ n.velocity = v ∧
    n.role = normRoleField role ∧ n.chance = max 0 (min 1 (c.getD 1)) ∧
    n.mute = m ∧ n.accent = (if (a.getD 1) ≤ 0 then 1 else a.getD 1) ∧
    n.glide_ticks = (if (g.getD 0) < 0 then 0 else g.getD 0) := by
  unfold mkNote at h
  split_ifs at h with h1 h2 h3 h4
  push_neg at h1 h2
  have hn := Except.ok.inj h
  subst hn
  refine ⟨⟨h1.1, h1.2, h2.1, h2.2, le_of_not_lt h3, by omega⟩,
    rfl, rfl, rfl, rfl, ?_, rfl, rfl, rfl, rfl⟩
  rcases role with _ | r <;> rfl

theorem mkNote_ok_valid {s d pi v : ℤ} {role : Option String} {c : Option ℚ}
    {m : Bool} {a : Option ℚ} {g : Option ℤ} {n : Note}
    (h : mkNote s d pi v role c m a g = .ok n) : n.valid := by
  rcases mkNote_ok_inv h with ⟨⟨h1, h2, h3, h4, h5, h6⟩, hs, hd, hp, hv, _⟩
  unfold Note.valid
  omega

theorem expandLayers_ok_valid {layers : List DrumLayer} {n : Note}
    {out : List Note} (h : expandLayers layers n = .ok out) :
    ∀ m ∈ out, m.valid := by
  intro m hm
  rcases listMapE_ok_mem h hm with ⟨lay, _, hmk⟩
  exact mkNote_ok_valid hmk

theorem expandUnknownRole_ok_valid {kit : DrumKit} {n : Note}
    {out : List Note} (hn : n.valid) (h : expandUnknownRole kit n = .ok out) :
    ∀ m ∈ out, m.valid := by
  unfold expandUnknownRole at h
  split_ifs at h with hp
  · cases h
    intro m hm
    rcases List.mem_singleton.mp hm with rfl
    exact hn
  · exact expandLayers_ok_valid h

theorem expandRoleNote_ok_valid {t : Track} {n : Note} {out : List Note}
    (hn : n.valid) (h : expandRoleNote t n = .ok out) :
    ∀ m ∈ out, m.valid := by
  unfold expandRoleNote at h
  split at h
  · cases h
    intro m hm
    rcases List.mem_singleton.mp hm with rfl
    exact hn
  · split_ifs at h with hrole
    · cases h
      intro m hm
      rcases List.mem_singleton.mp hm with rfl
      exact hn
    · dsimp only at h
      split at h
      · split_ifs at h with hls
        · exact expandUnknownRole_ok_valid hn h
        · exact expandLayers_ok_valid h
      · exact expandUnknownRole_ok_valid hn h

theorem expandRoleNotes_ok_valid {t : Track} {notes out : List Note}
    (hn : ∀ x ∈ notes, x.valid) (h : expandRoleNotes t notes = .ok out) :
    ∀ m ∈ out, m.valid := by
  unfold expandRoleNotes at h
  rcases exceptMap_ok_inv h with ⟨ls, hls, hout⟩
  subst hout
  intro m hm
  rcases List.mem_flatten.mp hm with ⟨l, hl, hml⟩
  rcases listMapE_ok_mem hls hl with ⟨x, hx, hfx⟩
  exact expandRoleNote_ok_valid (hn x hx) hfx m hml

theorem humanizeOne_ok_valid {jt jv : ℕ → ℤ} {st : HumanizeSettings}
    {p : ℕ × Note} {n : Note} (h : humanizeOne jt jv st p = .ok n) :
    n.valid := mkNote_ok_valid h

theorem humanizeNotes_ok_valid {jt jv : ℕ → ℤ} {st : HumanizeSettings}
    {notes out : List Note} (h : humanizeNotes jt jv st notes = .ok out) :
    ∀ m ∈ out, m.valid := by
  unfold humanizeNotes at h
  split_ifs at h with h0
  · intro m hm
    rcases listMapE_ok_mem h hm with ⟨x, _, hmk⟩
    exact mkNote_ok_valid hmk
  · cases hlm : listMapE (humanizeOne jt jv st) notes.enum with
    | error e =>
      rw [hlm] at h
      cases h
    | ok l =>
      rw [hlm] at h
      cases h
      intro m hm
      have hm2 := mem_insSortBy hm
      rcases listMapE_ok_mem hlm hm2 with ⟨x, _, hmk⟩
      exact humanizeOne_ok_valid hmk

theorem flattenPatRep_ok_valid {ppq swing_percent base : ℤ} {pat : Pattern}
    {out : List Note} (h : flattenPatRep ppq swing_percent base pat = .ok out) :
    ∀ m ∈ out, m.valid := by
  intro m hm
  rcases listMapE_ok_mem h hm with ⟨x, _, hmk⟩
  exact mkNote_ok_valid hmk

theorem flattenClipOne_ok_valid {project : Project} {track_index : ℤ}
    {track : Track} {ppq swing_percent : ℤ} {clip : Clip} {out : List Note}
    (h : flattenClipOne project track_index track ppq swing_percent clip = .ok out) :
    ∀ m ∈ out, m.valid := by
  unfold flattenClipOne at h
  cases hlk : track.patterns.lookup (resolvePatternName clip.pattern
      track_index clip.start project.sections project.variations) with
  | none =>
    rw [hlk] at h
    cases h
    intro m hm
    simp at hm
  | some pat =>
    rw [hlk] at h
    rcases exceptMap_ok_inv h with ⟨ls, hls, hout⟩
    subst hout
    intro m hm
    rcases List.mem_flatten.mp hm with ⟨l, hl, hml⟩
    rcases listMapE_ok_mem hls hl with ⟨rep, _, hrep⟩
    exact flattenPatRep_ok_valid hrep m hml

theorem flattenClips_ok_valid {project : Project} {track_index : ℤ}
    {track : Track} {ppq swing_percent : ℤ} {out : List Note}
    (h : flattenClips project track_index track ppq swing_percent = .ok out) :
    ∀ m ∈ out, m.valid := by
  unfold flattenClips at h
  rcases exceptMap_ok_inv h with ⟨ls, hls, hout⟩
  subst hout
  intro m hm
  rcases List.mem_flatten.mp hm with ⟨l, hl, hml⟩
  rcases listMapE_ok_mem hls hl with ⟨clip, _, hclip⟩
  exact flattenClipOne_ok_valid hclip m hml

theorem flattenLinear_ok_valid {track : Track} {ppq swing_percent : ℤ}
    {out : List Note} (h : flattenLinear track ppq swing_percent = .ok out) :
    ∀ m ∈ out, m.valid := by
  intro m hm
  rcases listMapE_ok_mem h hm with ⟨x, _, hmk⟩
  exact mkNote_ok_valid hmk

theorem exceptBind_ok_inv {α β : Type} {e : Except String α}
    {f : α → Except String β} {b : β} (h : e >>= f = .ok b) :
    ∃ a, e = .ok a ∧ f a = .ok b := by
  cases e with
  | error s =>
    simp only [Bind.bind, Except.bind] at h
    cases h
  | ok a =>
    refine ⟨a, rfl, ?_⟩
    simpa only [Bind.bind, Except.bind] using h

theorem clamp_bounds {v lo hi : ℤ} (h : lo ≤ hi) :
    lo ≤ clamp v lo hi ∧ clamp v lo hi ≤ hi := by
  unfold clamp
  omega

/-! ## Claim theorems and their witnesses -/

/-- C4: every note in the list returned by flatten_track_notes (swing, role
expansion, humanization) has velocity ∈ [1,127], start ≥ 0, duration ≥ 1 and
pitch ∈ [0,127]. -/
theorem claim_C4 (jt jv : ℕ → ℤ) (project : Project) (track_index : ℤ)
    (track : Track) (ppqOpt swingOpt : Option ℤ) (er ah : Bool)
    (out : List Note)
    (h : flattenTrackNotes jt jv project track_index track ppqOpt swingOpt
      er ah = .ok out) :
    ∀ n ∈ out, 1 ≤ n.velocity ∧ n.velocity ≤ 127 ∧ 0 ≤ n.start ∧
      1 ≤ n.duration ∧ 0 ≤ n.pitch ∧ n.pitch ≤ 127 := by
  unfold flattenTrackNotes at h
  dsimp only at h
  split at h
  · cases h
  · rename_i abs habs
    have habsv : ∀ m ∈ abs, m.valid := by
      split_ifs at habs with hb
      · exact flattenClips_ok_valid habs
      · exact flattenLinear_ok_valid habs
    split at h
    · cases h
    · rename_i exp hexp
      have hexpv : ∀ m ∈ exp, m.valid := by
        split_ifs at hexp with he
        · exact expandRoleNotes_ok_valid habsv hexp
        · cases hexp
          exact habsv
      have houtv : ∀ m ∈ out, m.valid := by
        split_ifs at h with hh
        · exact humanizeNotes_ok_valid h
        · cases h
          exact hexpv
      intro n hn
      exact houtv n hn

/-- C4 witness: a concrete arranged track under 50% swing with a snare role
note flattens successfully, and the swung hat note of the result is in
bounds. -/
theorem claim_C4_witness :
    1 ≤ (⟨180, 120, 42, 80, none, 1, false, 1, 0⟩ : Note).velocity ∧
    (⟨180, 120, 42, 80, none, 1, false, 1, 0⟩ : Note).velocity ≤ 127 ∧
    0 ≤ (⟨180, 120, 42, 80, none, 1, false, 1, 0⟩ : Note).start ∧
    1 ≤ (⟨180, 120, 42, 80, none, 1, false, 1, 0⟩ : Note).duration ∧
    0 ≤ (⟨180, 120, 42, 80, none, 1, false, 1, 0⟩ : Note).pitch ∧
    (⟨180, 120, 42, 80, none, 1, false, 1, 0⟩ : Note).pitch ≤ 127 :=
  claim_C4 jzero jzero prjArr 0 trkArr none none true true
    [⟨0, 120, 38, 100, none, 1, false, 1, 0⟩,
     ⟨0, 120, 40, 65, none, 1, false, 1, 0⟩,
     ⟨180, 120, 42, 80, none, 1, false, 1, 0⟩]
    (by with_unfolding_all decide)
    ⟨180, 120, 42, 80, none, 1, false, 1, 0⟩ (by decide)

/-- C3 counterexample: two tracks both on channel 5 pass through
validate_and_migrate_project unchanged, so channel uniqueness does not hold
after validation. -/
theorem claim_C3_counterexample :
    ((validateAndMigrateProject prjDupChannels).tracks.map Track.channel)
      = [5, 5] ∧
    ¬ ((validateAndMigrateProject prjDupChannels).tracks.map
        Track.channel).Nodup := by
  constructor
  · decide
  · decide

/-- C3 amended: after validate_and_migrate_project every track channel lies
in [0,15]; uniqueness of channels across tracks is not enforced. -/
theorem claim_C3_amended (p : Project) :
    ∀ t ∈ (validateAndMigrateProject p).tracks,
      0 ≤ t.channel ∧ t.channel ≤ 15 := by
  intro t ht
  unfold validateAndMigrateProject at ht
  dsimp only at ht
  rcases List.mem_map.mp ht with ⟨t0, _, rfl⟩
  have hch : (fixTrack (clamp p.ppq 24 1920) t0).channel
      = clamp t0.channel 0 15 := rfl
  rw [hch]
  exact clamp_bounds (by omega)

/-- C3 witness: the amended bound at a concrete validated project. -/
theorem claim_C3_witness :
    0 ≤ ({ trkBase with channel := 5 } : Track).channel ∧
      ({ trkBase with channel := 5 } : Track).channel ≤ 15 :=
  claim_C3_amended prjDupChannels { trkBase with channel := 5 }
    (by with_unfolding_all decide)

/-- C5 counterexample: at ppq = 400 (step 100) and swing 29, the code adds
int(100 · (29/100.0)) = 28 in binary64, not floor(100·29/100) = 29. -/
theorem claim_C5_counterexample :
    applySwingTick 100 400 29 = 128 ∧ (100 * 29 : ℤ).fdiv 100 = 29 ∧
    applySwingTick 100 400 29 ≠ 100 + (100 * 29 : ℤ).fdiv 100 := by
  refine ⟨by with_unfolding_all decide, by decide,
    by with_unfolding_all decide⟩

/-- C5 amended: swing leaves even 16th steps unchanged and adds the
binary64-truncated offset int(step · (swing%/100.0)) to odd steps (which can
fall one short of the exact floor(step·swing%/100)); swing 0 is the identity;
for ppq 480, swing 50 the offset is exactly floor(120·50/100) = 60, and the
§8 scenario ticks [0,120,240,360] map to [0,180,240,420]. -/
theorem claim_C5_amended :
    (∀ tick ppq : ℤ, applySwingTick tick ppq 0 = tick) ∧
    (∀ tick ppq sw : ℤ, 0 < sw → 0 < Int.fdiv ppq 4 →
      applySwingTick tick ppq sw =
        if (Int.fdiv tick (Int.fdiv ppq 4)).fmod 2 = 1
        then tick + swingOffset (Int.fdiv ppq 4) sw else tick) ∧
    swingOffset 120 50 = (120 * 50 : ℤ).fdiv 100 ∧
    [0, 120, 240, 360].map (fun t => applySwingTick t 480 50)
      = [0, 180, 240, 420] := by
  refine ⟨?_, ?_, by with_unfolding_all decide, by with_unfolding_all decide⟩
  · intro tick ppq
    unfold applySwingTick
    rw [if_pos (by omega : (0 : ℤ) ≤ 0)]
  · intro tick ppq sw hsw hstep
    unfold applySwingTick
    rw [if_neg (by omega : ¬sw ≤ 0)]
    dsimp only
    rw [if_neg (by omega : ¬Int.fdiv ppq 4 ≤ 0)]

/-- C5 witness: the odd/even characterization applied at a concrete tick. -/
theorem claim_C5_witness :
    applySwingTick 130 480 50 =
      if (Int.fdiv 130 (Int.fdiv 480 4)).fmod 2 = 1
      then 130 + swingOffset (Int.fdiv 480 4) 50 else 130 :=
  claim_C5_amended.2.1 130 480 50 (by decide) (by decide)

/-- C1: for a project with an empty mix spec whose only track is an active
808-sampler track, render_project_wav does not synthesize the track — the
call render.py:136 passes the keyword argument track_index, which
render_sampler_track (sampler.py:236) does not accept, so the sampler step
raises TypeError instead of completing. -/
theorem claim_C1 :
    prj808.mix = [] ∧ trk808.sampler = some "808" ∧
    trk808.instrument = none ∧ activeTrackIdx prj808 = [0] ∧
    renderProjectWav rngHalf jzero jzero "sampler" prj808 "gm" =
      .error "TypeError: render_sampler_track() got an unexpected keyword argument: track_index" := by
  with_unfolding_all decide

/-- C2 counterexample: with two back-to-back notes the emitted event list
places the note_on of the second note before the note_off of the first at
tick 480, so note_off does not come before note_on of the same tick. -/
theorem claim_C2_counterexample :
    iterTrackEvents rngHalf jzero jzero prjTwoNotes 0 trkTwoNotes 480 0 =
      .ok [(0, Msg.program_change 0 1), (0, Msg.control_change 7 100 1),
           (0, Msg.control_change 10 64 1), (0, Msg.control_change 91 0 1),
           (0, Msg.control_change 93 0 1), (0, Msg.note_on 60 100 1),
           (480, Msg.note_on 62 100 1), (480, Msg.note_off 60 0 1),
           (960, Msg.note_off 62 0 1)] ∧
    ¬ specMidiOrder
        [(0, Msg.program_change 0 1), (0, Msg.control_change 7 100 1),
         (0, Msg.control_change 10 64 1), (0, Msg.control_change 91 0 1),
         (0, Msg.control_change 93 0 1), (0, Msg.note_on 60 100 1),
         (480, Msg.note_on 62 100 1), (480, Msg.note_off 60 0 1),
         (960, Msg.note_off 62 0 1)] := by
  constructor
  · with_unfolding_all decide
  · decide

theorem msg_isOn_isOff {m : Msg} (h : m.isOn = true) : m.isOff = false := by
  cases m <;> simp [Msg.isOn, Msg.isOff] at h ⊢

/-- C2 amended: the per-track MIDI event list is ordered by absolute tick
ascending, and among events of the same tick every note_on is placed before
every note_off (the source sorts with key (time, 1 if note_off else 0)). -/
theorem claim_C2_amended (rng : ℤ → ℚ) (jt jv : ℕ → ℤ) (project : Project)
    (track_index : ℤ) (track : Track) (ppq swing_percent : ℤ)
    (evs : List (ℤ × Msg))
    (h : iterTrackEvents rng jt jv project track_index track ppq
      swing_percent = .ok evs) : codeMidiOrder evs := by
  unfold iterTrackEvents at h
  rcases exceptMap_ok_inv h with ⟨raw, _, hevs⟩
  subst hevs
  have hp : (insSortBy evLtB raw).Pairwise
      (fun a b => pairLe (evKey a) (evKey b)) :=
    pairwise_insSortBy evKey raw
  unfold codeMidiOrder
  refine hp.imp ?_
  intro a b hab
  unfold pairLe evKey at hab
  dsimp only at hab
  constructor
  · rcases hab with h1 | ⟨h1, _⟩ <;> omega
  · rintro heq ⟨hoff, hon⟩
    have hbo : b.2.isOff = false := msg_isOn_isOff hon
    rw [hoff, hbo] at hab
    rcases hab with h1 | ⟨_, h2⟩
    · omega
    · simp at h2

/-- C2 witness: the amended ordering at the concrete two-note track. -/
theorem claim_C2_witness :
    codeMidiOrder
      [(0, Msg.program_change 0 1), (0, Msg.control_change 7 100 1),
       (0, Msg.control_change 10 64 1), (0, Msg.control_change 91 0 1),
       (0, Msg.control_change 93 0 1), (0, Msg.note_on 60 100 1),
       (480, Msg.note_on 62 100 1), (480, Msg.note_off 60 0 1),
       (960, Msg.note_off 62 0 1)] :=
  claim_C2_amended rngHalf jzero jzero prjTwoNotes 0 trkTwoNotes 480 0 _
    (by with_unfolding_all decide)

/-- C7: the chance-gating bug.  A note with chance exactly 0.0 is falsy, so
`float(chance or 1.0)` re-reads it as 1.0 and the note is kept
unconditionally, although the documented rule (draw r and drop iff
r > chance) would drop it for any r > 0; for every other chance value the
keep decision is the pure filter keyed by
(seed_base + start·31 + pitch·131) & 0x7FFFFFFF, hence identical across
runs.  The first conjunct evaluates the failing input; the second proves the
filter characterization of the implementation. -/
theorem claim_C7 :
    (applyNoteChance rngHalf [noteChance0] 0 = [noteChance0] ∧
     noteChance0.chance = 0 ∧ noteChance0.mute = false ∧
     rngHalf ((0 + noteChance0.start * 31 + noteChance0.pitch * 131).emod
       (2 ^ 31)) > noteChance0.chance) ∧
    (∀ (rng : ℤ → ℚ) (seed_base : ℤ) (notes : List Note),
      applyNoteChance rng notes seed_base = notes.filter (fun n =>
        if n.mute then false
        else if (if n.chance = 0 then (1 : ℚ) else n.chance) < 1 then
          decide (rng ((seed_base + n.start * 31 + n.pitch * 131).emod
            (2 ^ 31)) ≤ (if n.chance = 0 then (1 : ℚ) else n.chance))
        else true)) := by
  constructor
  · refine ⟨?_, by decide, by decide, by with_unfolding_all decide⟩
    have h0 : ¬((1 : ℚ) < 1) := lt_irrefl 1
    show applyNoteChance rngHalf [noteChance0] 0 = [noteChance0]
    with_unfolding_all decide
  · intro rng seed_base notes
    induction notes with
    | nil => rfl
    | cons n rest ih =>
      unfold applyNoteChance
      rw [ih]
      simp only [List.filter_cons]
      by_cases hm : n.mute = true
      · rw [if_pos hm, if_pos hm]
        rw [if_neg (show ¬(false = true) from fun hx => Bool.noConfusion hx)]
      · rw [if_neg hm, if_neg hm]
        by_cases hc : (if n.chance = 0 then (1 : ℚ) else n.chance) < 1
        · rw [if_pos hc, if_pos hc]
          by_cases hr : (if n.chance = 0 then (1 : ℚ) else n.chance) <
              rng ((seed_base + n.start * 31 + n.pitch * 131).emod (2 ^ 31))
          · have hr2 : decide
                (rng ((seed_base + n.start * 31 + n.pitch * 131).emod (2 ^ 31))
                  ≤ (if n.chance = 0 then (1 : ℚ) else n.chance)) = false :=
              decide_eq_false (not_le.mpr hr)
            rw [if_pos hr, hr2]
            rw [if_neg (show ¬(false = true) from fun hx => Bool.noConfusion hx)]
          · have hr2 : decide
                (rng ((seed_base + n.start * 31 + n.pitch * 131).emod (2 ^ 31))
                  ≤ (if n.chance = 0 then (1 : ℚ) else n.chance)) = true :=
              decide_eq_true (not_lt.mp hr)
            rw [if_neg hr, hr2, if_pos rfl]
        · rw [if_neg hc, if_neg hc, if_pos rfl]

/-- C10: Note construction normalizes chance (coerce-or-default then clamp to
[0,1]), accent (non-positive or unparseable becomes 1.0), glide_ticks
(negative or unparseable becomes 0) and role (empty after strip becomes
none), and raises ValueError exactly when pitch ∉ [0,127], velocity ∉
[1,127], start < 0 or duration ≤ 0 — so every constructed Note satisfies
the bounds. -/
theorem claim_C10 (s d pi v : ℤ) (role : Option String) (c : Option ℚ)
    (m : Bool) (a : Option ℚ) (g : Option ℤ) :
    ((∃ n, mkNote s d pi v role c m a g = .ok n) ↔
      (0 ≤ pi ∧ pi ≤ 127 ∧ 1 ≤ v ∧ v ≤ 127 ∧ 0 ≤ s ∧ 1 ≤ d)) ∧
    (∀ n, mkNote s d pi v role c m a g = .ok n →
      0 ≤ n.chance ∧ n.chance ≤ 1 ∧ n.chance = max 0 (min 1 (c.getD 1)) ∧
      0 < n.accent ∧ n.accent = (if (a.getD 1) ≤ 0 then 1 else a.getD 1) ∧
      0 ≤ n.glide_ticks ∧
      n.glide_ticks = (if (g.getD 0) < 0 then 0 else g.getD 0) ∧
      n.role = normRoleField role ∧ n.valid) := by
  constructor
  · constructor
    · rintro ⟨n, hn⟩
      exact (mkNote_ok_inv hn).1
    · rintro ⟨h1, h2, h3, h4, h5, h6⟩
      unfold mkNote
      rw [if_neg (not_not_intro ⟨h1, h2⟩)]
      dsimp only
      rw [if_neg (not_not_intro ⟨h3, h4⟩), if_neg (not_lt.mpr h5),
        if_neg (by omega : ¬d ≤ 0)]
      exact ⟨_, rfl⟩
  · intro n hn
    rcases mkNote_ok_inv hn with ⟨hb, _, _, _, _, hrole, hch, _, hac, hgl⟩
    refine ⟨?_, ?_, hch, ?_, hac, ?_, hgl, hrole, mkNote_ok_valid hn⟩
    · rw [hch]
      exact le_max_left _ _
    · rw [hch]
      exact max_le (by norm_num) (min_le_left _ _)
    · rw [hac]
      split_ifs with hx
      · norm_num
      · exact lt_of_not_le hx
    · rw [hgl]
      split_ifs with hx <;> omega

/-- C10 witness: a whitespace role, an out-of-range chance, a zero accent and
a negative glide normalize as described at a concrete construction. -/
theorem claim_C10_witness :
    0 ≤ (⟨0, 120, 60, 100, none, 1, false, 1, 0⟩ : Note).chance ∧
    (⟨0, 120, 60, 100, none, 1, false, 1, 0⟩ : Note).chance ≤ 1 ∧
    (⟨0, 120, 60, 100, none, 1, false, 1, 0⟩ : Note).chance
      = max 0 (min 1 ((some (3/2 : ℚ)).getD 1)) ∧
    0 < (⟨0, 120, 60, 100, none, 1, false, 1, 0⟩ : Note).accent ∧
    (⟨0, 120, 60, 100, none, 1, false, 1, 0⟩ : Note).accent
      = (if ((some (0 : ℚ)).getD 1) ≤ 0 then 1 else (some (0 : ℚ)).getD 1) ∧
    0 ≤ (⟨0, 120, 60, 100, none, 1, false, 1, 0⟩ : Note).glide_ticks ∧
    (⟨0, 120, 60, 100, none, 1, false, 1, 0⟩ : Note).glide_ticks
      = (if ((some (-5 : ℤ)).getD 0) < 0 then 0 else (some (-5 : ℤ)).getD 0) ∧
    (⟨0, 120, 60, 100, none, 1, false, 1, 0⟩ : Note).role
      = normRoleField (some "  ") ∧
    (⟨0, 120, 60, 100, none, 1, false, 1, 0⟩ : Note).valid :=
  (claim_C10 0 120 60 100 (some "  ") (some (3/2)) false (some 0)
    (some (-5))).2 ⟨0, 120, 60, 100, none, 1, false, 1, 0⟩
    (by with_unfolding_all decide)

theorem list_lookup_mem {α β : Type} [BEq α] [LawfulBEq α]
    {l : List (α × β)} {k : α} {v : β} (h : l.lookup k = some v) :
    v ∈ l.map Prod.snd := by
  induction l with
  | nil => simp [List.lookup] at h
  | cons kv rest ih =>
    rcases kv with ⟨k1, v1⟩
    by_cases hk : k == k1
    · simp only [List.lookup, hk] at h
      cases h
      simp
    · simp only [List.lookup, hk] at h
      simp only [List.map_cons, List.mem_cons]
      exact Or.inr (ih h)

theorem getDrumKit_mem (name : String) :
    getDrumKit name ∈ [trapHard, houseClean, boombapDusty, gmBasic] := by
  unfold getDrumKit
  dsimp only
  split
  · rename_i kit hkit
    have hm := list_lookup_mem hkit
    simpa [BUILTIN_KITS] using hm
  · simp

theorem kitLayers_bound {name role : String} {ls : List DrumLayer}
    (h : (getDrumKit name).roles.lookup role = some ls) :
    ∀ lay ∈ ls, 0 ≤ lay.pitch ∧ lay.pitch ≤ 127 := by
  intro lay hmem
  have hk := getDrumKit_mem name
  have hls := list_lookup_mem h
  have hall : ∀ kit ∈ [trapHard, houseClean, boombapDusty, gmBasic],
      ∀ ls2 ∈ kit.roles.map Prod.snd, ∀ lay2 ∈ ls2,
        0 ≤ lay2.pitch ∧ lay2.pitch ≤ 127 := by
    with_unfolding_all decide
  exact hall _ hk ls hls lay hmem

theorem listMapE_cons {α β : Type} (f : α → Except String β) (x : α)
    (xs : List α) :
    listMapE f (x :: xs) =
      match f x with
      | .error e => .error e
      | .ok y =>
        match listMapE f xs with
        | .error e => .error e
        | .ok ys => .ok (y :: ys) := rfl

/-- Evaluation of the layer expansion on a normalized note: one event per
layer, velocity clamp(round(velocity·vel_mul in binary64), 1, 127), role
dropped, chance copied except that exactly 0 becomes 1, the other expression
fields copied unchanged. -/
theorem expandLayers_eq {layers : List DrumLayer} {n : Note}
    (hn : n.valid) (hc : 0 ≤ n.chance ∧ n.chance ≤ 1) (ha : 0 < n.accent)
    (hg : 0 ≤ n.glide_ticks)
    (hl : ∀ lay ∈ layers, 0 ≤ lay.pitch ∧ lay.pitch ≤ 127) :
    expandLayers layers n = .ok (layers.map (fun lay =>
      ⟨n.start, n.duration, lay.pitch,
       clamp (pyRoundHalfEven (flMul (n.velocity : ℚ) lay.vel_mul)) 1 127,
       none, (if n.chance = 0 then 1 else n.chance), n.mute, n.accent,
       n.glide_ticks⟩)) := by
  induction layers with
  | nil => rfl
  | cons lay rest ih =>
    have hp := hl lay (List.mem_cons_self lay rest)
    have hvb := clamp_bounds
      (v := pyRoundHalfEven (flMul (n.velocity : ℚ) lay.vel_mul))
      (by omega : (1 : ℤ) ≤ 127)
    have hcv : max 0 (min 1 (if n.chance = 0 then (1 : ℚ) else n.chance))
        = (if n.chance = 0 then (1 : ℚ) else n.chance) := by
      split_ifs with h0
      · norm_num
      · rw [min_eq_right hc.2, max_eq_right hc.1]
    have hmk : mkNote n.start n.duration lay.pitch
        (clamp (pyRoundHalfEven (flMul (n.velocity : ℚ) lay.vel_mul)) 1 127)
        none (some (if n.chance = 0 then 1 else n.chance)) n.mute
        (some n.accent) (some n.glide_ticks) =
        .ok ⟨n.start, n.duration, lay.pitch,
          clamp (pyRoundHalfEven (flMul (n.velocity : ℚ) lay.vel_mul)) 1 127,
          none, (if n.chance = 0 then 1 else n.chance), n.mute, n.accent,
          n.glide_ticks⟩ := by
      unfold mkNote
      rw [if_neg (not_not_intro hp)]
      dsimp only
      rw [if_neg (not_not_intro hvb), if_neg (not_lt.mpr hn.2.2.1),
        if_neg (by have := hn.2.2.2.1; omega : ¬n.duration ≤ 0)]
      refine congrArg Except.ok ?_
      simp only [Note.mk.injEq, Option.getD_some, true_and, and_true]
      exact ⟨hcv, if_neg (not_le.mpr ha), if_neg (not_lt.mpr hg)⟩
    have ih2 := ih (fun l2 h2 => hl l2 (List.mem_cons_of_mem lay h2))
    unfold expandLayers at ih2 ⊢
    rw [listMapE_cons, hmk, ih2]
    rfl

/-- C6 counterexample: expanding a snare role note whose chance is exactly 0
produces events with chance 1, so chance is not copied unchanged. -/
theorem claim_C6_counterexample :
    expandRoleNote trkBase snareNoteChance0 =
      .ok [⟨0, 120, 38, 100, none, 1, false, 1, 0⟩,
           ⟨0, 120, 40, 65, none, 1, false, 1, 0⟩] ∧
    snareNoteChance0.chance = 0 ∧ ((1 : ℚ) ≠ 0) := by
  refine ⟨by with_unfolding_all decide, by decide, by norm_num⟩

/-- C6 amended: for a note with a non-empty (normalized) role, expansion
produces one event per layer of the track's kit with pitch = layer.pitch and
velocity = clamp(round(velocity·vel_mul), 1, 127) (product in binary64),
copying mute/accent/glide unchanged and chance unchanged except that a chance
of exactly 0 becomes 1; an unknown role falls back to the note's own pitch,
or to the closed-hat layers when the pitch is 0; the trap_hard snare at
velocity 100 expands to pitches 38 (vel 100) and 40 (vel 65). -/
theorem claim_C6_amended (t : Track) (n : Note) (r : String)
    (hn : n.valid) (hc : 0 ≤ n.chance ∧ n.chance ≤ 1) (ha : 0 < n.accent)
    (hg : 0 ≤ n.glide_ticks) (hr : normalizeRole n.role = some r)
    (hr2 : r ≠ "") :
    (∀ layers, (getDrumKit t.drum_kit).roles.lookup r = some layers →
      layers ≠ [] →
      expandRoleNote t n = .ok (layers.map (fun lay =>
        ⟨n.start, n.duration, lay.pitch,
         clamp (pyRoundHalfEven (flMul (n.velocity : ℚ) lay.vel_mul)) 1 127,
         none, (if n.chance = 0 then 1 else n.chance), n.mute, n.accent,
         n.glide_ticks⟩))) ∧
    ((getDrumKit t.drum_kit).roles.lookup r = none → n.pitch ≠ 0 →
      expandRoleNote t n = .ok [n]) ∧
    ((getDrumKit t.drum_kit).roles.lookup r = none → n.pitch = 0 →
      expandRoleNote t n = .ok
        ((((getDrumKit t.drum_kit).roles.lookup "hat_closed").getD
            [⟨42, 1⟩]).map (fun lay =>
          ⟨n.start, n.duration, lay.pitch,
           clamp (pyRoundHalfEven (flMul (n.velocity : ℚ) lay.vel_mul)) 1 127,
           none, (if n.chance = 0 then 1 else n.chance), n.mute, n.accent,
           n.glide_ticks⟩))) ∧
    expandRoleNote trkBase snareNote =
      .ok [⟨0, 120, 38, 100, none, 1, false, 1, 0⟩,
           ⟨0, 120, 40, 65, none, 1, false, 1, 0⟩] := by
  refine ⟨?_, ?_, ?_, by with_unfolding_all decide⟩
  · intro layers hlk hne
    unfold expandRoleNote
    rw [hr]
    dsimp only
    rw [if_neg hr2, hlk]
    dsimp only
    have hie : layers.isEmpty = false := by
      cases layers with
      | nil => exact absurd rfl hne
      | cons x xs => rfl
    rw [hie]
    rw [if_neg (show ¬(false = true) from fun hx => Bool.noConfusion hx)]
    exact expandLayers_eq hn hc ha hg (kitLayers_bound hlk)
  · intro hlk hp0
    unfold expandRoleNote
    rw [hr]
    dsimp only
    rw [if_neg hr2, hlk]
    dsimp only
    unfold expandUnknownRole
    rw [if_pos ⟨⟨hn.2.2.2.2.1, hn.2.2.2.2.2⟩, hp0⟩]
  · intro hlk hp0
    unfold expandRoleNote
    rw [hr]
    dsimp only
    rw [if_neg hr2, hlk]
    dsimp only
    unfold expandUnknownRole
    rw [if_neg (by intro hx; exact hx.2 hp0)]
    cases hlkh : ((getDrumKit t.drum_kit).roles.lookup "hat_closed") with
    | some ls =>
      exact expandLayers_eq hn hc ha hg (kitLayers_bound hlkh)
    | none =>
      exact expandLayers_eq hn hc ha hg (by with_unfolding_all decide)

/-- C6 witness: the known-role branch applied at the concrete trap_hard snare
note. -/
theorem claim_C6_witness :
    expandRoleNote trkBase snareNote =
      .ok ([(⟨38, 1⟩ : DrumLayer), ⟨40, flLit 65 100⟩].map (fun lay =>
        ⟨snareNote.start, snareNote.duration, lay.pitch,
         clamp (pyRoundHalfEven (flMul (snareNote.velocity : ℚ)
           lay.vel_mul)) 1 127, none,
         (if snareNote.chance = 0 then 1 else snareNote.chance),
         snareNote.mute, snareNote.accent, snareNote.glide_ticks⟩)) :=
  (claim_C6_amended trkBase snareNote "snare" (by decide) (by decide)
    (by decide) (by decide) (by with_unfolding_all decide) (by decide)).1
    [⟨38, 1⟩, ⟨40, flLit 65 100⟩] (by with_unfolding_all rfl)
    (by intro hx; cases hx)


lemma exceptBind_ok {ε α β : Type} (a : α) (f : α → Except ε β) :
    (Except.ok a >>= f) = f a := rfl

lemma allDigits_ne_nil {s : List Char} (h : allDigits s = true) :
    s.isEmpty = false := by
  cases s with
  | nil => exact absurd h (by decide)
  | cons a t => rfl

lemma allDigits_cons_dash (t : List Char) : allDigits ('-' :: t) = false := by
  unfold allDigits
  simp only [List.isEmpty_cons, Bool.not_false, Bool.true_and, List.all_cons]
  rw [show ('-').isDigit = false from rfl]
  rfl

/-- C8 (amended): parse_timecode_ticks returns any int argument unchanged
(negatives included); an all-whitespace string errors; a digit string parses
to its decimal value; a minus sign followed by digits parses to the NEGATIVE
of that value and is accepted; a two- or three-part colon form parses each
part with int() and yields bar·(ppq·4) + beat·ppq + sub when all parts are
nonnegative, erroring when any part is negative; a colon-free string that is
not an (optionally negated) digit string errors. -/
theorem claim_C8_amended (ppq n : ℤ) (s0 s : List Char)
    (hs : trimChars s0 = s) :
    parseTimecodeTicks ppq (.int n) = .ok n ∧
    (s = [] → parseTimecodeTicks ppq (.str s0) = .error "empty timecode") ∧
    (allDigits s = true →
      parseTimecodeTicks ppq (.str s0) = .ok (digitsVal s)) ∧
    (∀ t, s = '-' :: t → allDigits t = true →
      parseTimecodeTicks ppq (.str s0) = .ok (-(digitsVal t))) ∧
    (∀ b c bar beat, s.isEmpty = false → allDigits s = false →
      ¬(s.head? = some '-' ∧ allDigits s.tail = true) →
      splitOnColon s = [b, c] →
      pyIntParse b = some bar → pyIntParse c = some beat →
      parseTimecodeTicks ppq (.str s0) =
        (if bar < 0 ∨ beat < 0 then .error "timecode must be >= 0"
         else .ok (bar * (ppq * 4) + beat * ppq))) ∧
    (∀ b c d bar beat sub, s.isEmpty = false → allDigits s = false →
      ¬(s.head? = some '-' ∧ allDigits s.tail = true) →
      splitOnColon s = [b, c, d] →
      pyIntParse b = some bar → pyIntParse c = some beat →
      pyIntParse d = some sub →
      parseTimecodeTicks ppq (.str s0) =
        (if bar < 0 ∨ beat < 0 ∨ sub < 0 then .error "timecode must be >= 0"
         else .ok (bar * (ppq * 4) + beat * ppq + sub))) ∧
    (∀ b, s.isEmpty = false → allDigits s = false →
      ¬(s.head? = some '-' ∧ allDigits s.tail = true) →
      splitOnColon s = [b] →
      parseTimecodeTicks ppq (.str s0) = .error "invalid timecode") := by
  refine ⟨rfl, ?_, ?_, ?_, ?_, ?_, ?_⟩
  · intro h
    unfold parseTimecodeTicks
    dsimp only
    rw [hs, h]
    rfl
  · intro hd
    unfold parseTimecodeTicks
    dsimp only
    rw [hs, allDigits_ne_nil hd]
    rw [if_neg (show ¬(false = true) from fun hx => Bool.noConfusion hx)]
    rw [if_pos hd]
  · intro t hst hdt
    unfold parseTimecodeTicks
    dsimp only
    rw [hs, hst]
    rw [show (('-' :: t).isEmpty) = false from rfl]
    rw [if_neg (show ¬(false = true) from fun hx => Bool.noConfusion hx)]
    rw [allDigits_cons_dash]
    rw [if_neg (show ¬(false = true) from fun hx => Bool.noConfusion hx)]
    rw [if_pos (show ('-' :: t).head? = some '-' ∧ allDigits ('-' :: t).tail = true from ⟨rfl, hdt⟩)]
    rfl
  · intro b c bar beat hie had hneg hsplit hb hc
    unfold parseTimecodeTicks
    dsimp only
    rw [hs, hie]
    rw [if_neg (show ¬(false = true) from fun hx => Bool.noConfusion hx)]
    rw [had]
    rw [if_neg (show ¬(false = true) from fun hx => Bool.noConfusion hx)]
    rw [if_neg hneg]
    rw [hsplit]
    rw [if_neg (show ¬¬(([b, c] : List (List Char)).length = 2 ∨ ([b, c] : List (List Char)).length = 3) by simp)]
    simp only [List.getD_cons_zero, List.getD_cons_succ, hb, hc, Option.elim,
      exceptBind_ok]
    rw [if_neg (show ¬(([b, c] : List (List Char)).length = 3) by simp)]
    by_cases hnn : bar < 0 ∨ beat < 0
    · rw [if_pos (hnn.elim (fun h => Or.inl h)
        (fun h => Or.inr (Or.inl h)) : bar < 0 ∨ beat < 0 ∨ (0 : ℤ) < 0),
        if_pos hnn]
    · rw [if_neg (fun hx => hx.elim (fun h => hnn (Or.inl h))
        (fun hx2 => hx2.elim (fun h => hnn (Or.inr h))
          (fun h => absurd h (lt_irrefl 0)))), if_neg hnn, add_zero]
  · intro b c d bar beat sub hie had hneg hsplit hb hc hd
    unfold parseTimecodeTicks
    dsimp only
    rw [hs, hie]
    rw [if_neg (show ¬(false = true) from fun hx => Bool.noConfusion hx)]
    rw [had]
    rw [if_neg (show ¬(false = true) from fun hx => Bool.noConfusion hx)]
    rw [if_neg hneg]
    rw [hsplit]
    rw [if_neg (show ¬¬(([b, c, d] : List (List Char)).length = 2 ∨ ([b, c, d] : List (List Char)).length = 3) by simp)]
    simp only [List.getD_cons_zero, List.getD_cons_succ, hb, hc, Option.elim,
      exceptBind_ok]
    rw [if_pos (show (([b, c, d] : List (List Char)).length = 3) by simp)]
    simp only [List.getD_cons_zero, List.getD_cons_succ, hd, Option.elim,
      exceptBind_ok]
  · intro b hie had hneg hsplit
    unfold parseTimecodeTicks
    dsimp only
    rw [hs, hie]
    rw [if_neg (show ¬(false = true) from fun hx => Bool.noConfusion hx)]
    rw [had]
    rw [if_neg (show ¬(false = true) from fun hx => Bool.noConfusion hx)]
    rw [if_neg hneg]
    rw [hsplit]
    rw [if_pos (show ¬(([b] : List (List Char)).length = 2 ∨ ([b] : List (List Char)).length = 3) by simp)]

/-- C8 counterexample: the claim says every negative input fails with an
error, but the code accepts a leading minus sign on a digit string (the
startswith branch of timecode.py) and returns any negative bare int
unchanged. -/
theorem claim_C8_counterexample :
    parseTimecodeTicks 480 (.str ['-', '5']) = .ok (-5) ∧
    parseTimecodeTicks 480 (.int (-7)) = .ok (-7) := by
  exact ⟨by decide, rfl⟩

/-- C8 witness: the three-part colon form at ppq 480, "1:2:3", parses to
1·1920 + 2·480 + 3 = 2883 by the amended theorem. -/
theorem claim_C8_witness :
    parseTimecodeTicks 480 (.str ['1', ':', '2', ':', '3']) = .ok 2883 := by
  have h := (claim_C8_amended 480 0 ['1', ':', '2', ':', '3']
    ['1', ':', '2', ':', '3'] rfl).2.2.2.2.2.1 ['1'] ['2'] ['3'] 1 2 3
    rfl (by decide) (by decide) (by decide) (by decide) (by decide) (by decide)
  rw [h, if_neg (by omega)]
  norm_num


lemma dotR_cons (a b : ℝ) (l m : List ℝ) :
    dotR (a :: l) (b :: m) = a * b + dotR l m := rfl

lemma dotR_comm (a b : List ℝ) : dotR a b = dotR b a := by
  unfold dotR
  rw [List.zipWith_comm_of_comm (· * ·) mul_comm a b]

lemma dotR_self_nonneg (l : List ℝ) : 0 ≤ dotR l l := by
  induction l with
  | nil => exact le_refl 0
  | cons a t ih => rw [dotR_cons]; exact add_nonneg (mul_self_nonneg a) ih

lemma dotR_map_div (k : ℝ) (l : List ℝ) :
    dotR (l.map (fun x => x / k)) (l.map (fun x => x / k)) =
      dotR l l / (k * k) := by
  induction l with
  | nil => simp [dotR]
  | cons a t ih => rw [List.map_cons, dotR_cons, dotR_cons, ih]; ring

lemma dotR_replicate_zero (n : ℕ) :
    dotR (List.replicate n (0 : ℝ)) (List.replicate n 0) = 0 := by
  induction n with
  | zero => rfl
  | succ m ih => rw [List.replicate_succ, dotR_cons, ih]; ring

lemma dotR_cast_ge_one {v : List ℕ} {x : ℕ} (hxv : x ∈ v) (hx : x ≠ 0) :
    1 ≤ dotR (castR v) (castR v) := by
  induction v with
  | nil => cases hxv
  | cons a t ih =>
    rw [show castR (a :: t) = ((a : ℝ)) :: castR t from rfl, dotR_cons]
    rcases List.mem_cons.mp hxv with hxa | hxt
    · have h1 : (1 : ℝ) ≤ (a : ℝ) := by
        have : 1 ≤ a := Nat.one_le_iff_ne_zero.mpr (hxa ▸ hx)
        exact_mod_cast this
      nlinarith [dotR_self_nonneg (castR t)]
    · have h2 := ih hxt
      nlinarith [mul_self_nonneg ((a : ℝ))]

lemma castR_replicate_zero (n : ℕ) :
    castR (List.replicate n 0) = List.replicate n (0 : ℝ) := by
  induction n with
  | zero => rfl
  | succ m ih =>
    rw [List.replicate_succ, List.replicate_succ,
      show castR ((0 : ℕ) :: List.replicate m 0) =
        ((0 : ℕ) : ℝ) :: castR (List.replicate m 0) from rfl, ih]
    norm_num

lemma normalizeR_replicate_zero (n : ℕ) :
    normalizeR (List.replicate n 0) = List.replicate n (0 : ℝ) := by
  unfold normalizeR
  dsimp only
  rw [castR_replicate_zero]
  rw [dotR_replicate_zero, Real.sqrt_zero,
    if_pos (by norm_num : (0 : ℝ) ≤ 1 / 10 ^ 12), List.map_replicate]

lemma normalizeR_self_dot {v : List ℕ} (h : v.any (· ≠ 0) = true) :
    dotR (normalizeR v) (normalizeR v) = 1 := by
  simp only [List.any_eq_true, decide_eq_true_eq] at h
  obtain ⟨x, hxv, hx⟩ := h
  have hge : 1 ≤ dotR (castR v) (castR v) := dotR_cast_ge_one hxv hx
  unfold normalizeR
  dsimp only
  have hnormge : 1 ≤ Real.sqrt (dotR (castR v) (castR v)) := by
    rw [show (1 : ℝ) = Real.sqrt 1 from Real.sqrt_one.symm]
    exact Real.sqrt_le_sqrt hge
  rw [if_neg (by intro hc; nlinarith)]
  rw [dotR_map_div, Real.mul_self_sqrt (dotR_self_nonneg (castR v))]
  exact div_self (by linarith)

lemma projectSimilarity_comm (a b : Project) :
    projectSimilarity a b = projectSimilarity b a := by
  unfold projectSimilarity
  dsimp only
  rw [dotR_comm (normalizeR (fingerprintCounts a).pc)
      (normalizeR (fingerprintCounts b).pc),
    dotR_comm (normalizeR (fingerprintCounts a).step)
      (normalizeR (fingerprintCounts b).step),
    dotR_comm (normalizeR (fingerprintCounts a).intervals)
      (normalizeR (fingerprintCounts b).intervals),
    dotR_comm (normalizeR (fingerprintCounts a).vel)
      (normalizeR (fingerprintCounts b).vel),
    dotR_comm (normalizeR (fingerprintCounts a).evHash)
      (normalizeR (fingerprintCounts b).evHash),
    dotR_comm (normalizeR (fingerprintCounts a).trackEvHash)
      (normalizeR (fingerprintCounts b).trackEvHash)]

lemma projectSimilarity_self {P : Project}
    (h : (fingerprintCounts P).allPopulated) :
    projectSimilarity P P = 1 := by
  obtain ⟨h1, h2, h3, h4, h5, h6⟩ := h
  unfold projectSimilarity
  dsimp only
  rw [normalizeR_self_dot h1, normalizeR_self_dot h2, normalizeR_self_dot h3,
    normalizeR_self_dot h4, normalizeR_self_dot h5, normalizeR_self_dot h6]
  norm_num

lemma projectSimilarity_empty : projectSimilarity prjEmpty prjEmpty = 0 := by
  have hfc : fingerprintCounts prjEmpty =
      ⟨List.replicate 12 0, List.replicate 16 0, List.replicate 25 0,
       List.replicate 8 0, List.replicate 64 0, List.replicate 64 0⟩ := rfl
  unfold projectSimilarity
  rw [hfc]
  dsimp only
  rw [normalizeR_replicate_zero 12, normalizeR_replicate_zero 16,
    normalizeR_replicate_zero 25, normalizeR_replicate_zero 8,
    normalizeR_replicate_zero 64]
  rw [dotR_replicate_zero 12, dotR_replicate_zero 16, dotR_replicate_zero 25,
    dotR_replicate_zero 8, dotR_replicate_zero 64]
  norm_num

/-- C9 counterexample: project_similarity of the empty project with itself is
0, because every histogram is all-zero, _normalize maps each to the zero
vector, and the six cosines are all 0 — so sim(P,P) ≥ 0.999 fails for P with
no counted notes. -/
theorem claim_C9_counterexample :
    projectSimilarity prjEmpty prjEmpty = 0 ∧
    ¬((999 : ℝ) / 1000 ≤ projectSimilarity prjEmpty prjEmpty) := by
  refine ⟨projectSimilarity_empty, ?_⟩
  rw [projectSimilarity_empty]
  norm_num

/-- C9 (amended): project_similarity is symmetric and lies in [0,1] for all
projects; sim(P,P) = 1 (hence ≥ 0.999) holds under the additional hypothesis
that every one of P's six fingerprint histograms has a populated bin (true
whenever P has at least two counted notes), but not for projects with no
counted notes. -/
theorem claim_C9_amended (a b P : Project) :
    projectSimilarity a b = projectSimilarity b a ∧
    0 ≤ projectSimilarity a b ∧ projectSimilarity a b ≤ 1 ∧
    ((fingerprintCounts P).allPopulated →
      (999 : ℝ) / 1000 ≤ projectSimilarity P P) := by
  refine ⟨projectSimilarity_comm a b, ?_, ?_, ?_⟩
  · exact le_max_left 0 _
  · exact max_le zero_le_one (min_le_left 1 _)
  · intro h
    rw [projectSimilarity_self h]
    norm_num

/-- C9 witness: a two-note project has all six histograms populated, so its
self-similarity is at least 0.999 by the amended theorem. -/
theorem claim_C9_witness :
    (999 : ℝ) / 1000 ≤ projectSimilarity prjFp prjFp :=
  (claim_C9_amended prjFp prjFp prjFp).2.2.2 (by with_unfolding_all decide)

end ClawDaw
